import Mathlib

/-!
Verification development for the upload job processing subsystem of the
fastapi-excel-ingestion repository (src/app/main.py, src/app/crud.py,
src/app/config.py, src/app/models.py).

The Python code is shallowly embedded: the worksheet produced by the
spreadsheet library is a list of rows of scalar cell values, the database
is a list of ledger records plus the list of committed user rows, and the
filesystem is the list of existing file paths.  Fallible Python code is
embedded with Except or Option carrying the exception message.  Numeric
cell values are modelled as exact rationals; IEEE-754 rounding of the
underlying doubles is not modelled.
-/

/-- A scalar cell value as produced by the spreadsheet library for one
cell (None, str, int, float or bool).  Datetime cells play no role in the
claims and are omitted. -/
inductive Cell where
  | null
  | str (s : String)
  | int (n : Int)
  | float (q : Rat)
  | bool (b : Bool)
deriving DecidableEq, Repr

/-- Python truthiness bool(x) for the modelled cell values. -/
def Cell.truthy : Cell → Bool
  | .null => false
  | .str s => if s = ("") then false else true
  | .int n => if n = 0 then false else true
  | .float q => if q = 0 then false else true
  | .bool b => b

/-- Python str(x) for the modelled cell values.  The rendering of float
cells is a model stand in (Python prints a decimal form); no claim
depends on its exact text. -/
def Cell.pyStr : Cell → String
  | .null => ("None")
  | .str s => s
  | .int n => toString n
  | .float q => toString q.num ++ (if q.den = 1 then (".0") else ("/" ++ toString q.den))
  | .bool b => if b then ("True") else ("False")

/-- The whitespace class of Python str.strip (ASCII part; exotic unicode
whitespace is outside the model). -/
def pyWS (c : Char) : Bool :=
  if c = ' ' ∨ c = '\t' ∨ c = '\n' ∨ c = '\r' ∨ c.toNat = 11 ∨ c.toNat = 12
  then true else false

/-- Python str.strip(): drop leading and trailing whitespace. -/
def pyStrip (s : String) : String :=
  String.mk (((s.data.dropWhile pyWS).reverse.dropWhile pyWS).reverse)

/-- Python str.lower() (ASCII part; unicode case mapping is outside the
model). -/
def pyLower (s : String) : String :=
  String.mk (s.data.map Char.toLower)

instance {e a : Type} [DecidableEq e] [DecidableEq a] : DecidableEq (Except e a) :=
  fun x y =>
    match x, y with
    | .ok u, .ok v => if h : u = v then .isTrue (by rw [h]) else .isFalse (by intro hc; cases hc; exact h rfl)
    | .error u, .error v => if h : u = v then .isTrue (by rw [h]) else .isFalse (by intro hc; cases hc; exact h rfl)
    | .ok _, .error _ => .isFalse (by intro hc; cases hc)
    | .error _, .ok _ => .isFalse (by intro hc; cases hc)

/-- The exact value of a parsed Python float literal: a decimal fraction
n / 10^k, or one of the special values. -/
inductive FloatVal where
  | fin (n : Int) (k : Nat)
  | inf
  | negInf
  | nan
deriving DecidableEq, Repr

/-- Python numeric literals allow an underscore only between two digits. -/
def underscoresOkAux : Option Char → List Char → Bool
  | _, [] => true
  | p, c :: rest =>
    if c = '_' then
      (match p with | some d => d.isDigit | none => false)
        && (match rest with | d :: _ => d.isDigit | [] => false)
        && underscoresOkAux (some c) rest
    else underscoresOkAux (some c) rest

def underscoresOk (l : List Char) : Bool := underscoresOkAux none l

/-- Split a character list at the first occurrence of a separator. -/
def splitAtChar (c : Char) : List Char → List Char × Option (List Char)
  | [] => ([], none)
  | x :: xs =>
    if x = c then ([], some xs)
    else
      let r := splitAtChar c xs
      (x :: r.1, r.2)

/-- Value of a run of decimal digits, none when a non digit occurs. -/
def digitsToNat? (l : List Char) : Option Nat :=
  if l.all Char.isDigit then some (l.foldl (fun a c => a * 10 + (c.toNat - 48)) 0) else none

/-- Parse the decimal body (sign removed, lowercased, underscores removed)
of a Python float literal: digits with optional fraction and exponent. -/
def parseDecBody (sign : Int) (l : List Char) : Option FloatVal :=
  let me := splitAtChar 'e' l
  let ip := splitAtChar '.' me.1
  let frac := ip.2.getD []
  match digitsToNat? ip.1, digitsToNat? frac with
  | some intN, some fracN =>
    if ip.1 = [] ∧ frac = [] then none
    else
      let expVal? : Option Int :=
        match me.2 with
        | none => some 0
        | some [] => none
        | some (c :: rest) =>
          let ds := if c = '+' ∨ c = '-' then rest else c :: rest
          if ds = [] then none
          else
            match digitsToNat? ds with
            | some n => some (if c = '-' then -(n : Int) else (n : Int))
            | none => none
      match expVal? with
      | none => none
      | some ev =>
        let d : Int := sign * ((intN * 10 ^ frac.length + fracN : Nat) : Int)
        let k : Int := (frac.length : Int) - ev
        if k ≤ 0 then some (.fin (d * 10 ^ (-k).toNat) 0) else some (.fin d k.toNat)
  | _, _ => none

/-- Python float(s) on a string: strip whitespace, case insensitive
special names inf, infinity and nan, optional sign, then a decimal
literal.  none models a ValueError.  Huge finite literals are kept exact;
IEEE overflow of finite literals to infinity is not modelled. -/
def parseFloat (s : String) : Option FloatVal :=
  let t := (pyLower (pyStrip s)).data
  match t with
  | [] => none
  | c :: rest =>
    let sign : Int := if c = '-' then -1 else 1
    let body := if c = '-' ∨ c = '+' then rest else c :: rest
    if body = ("inf").data ∨ body = ("infinity").data then
      some (if sign = -1 then FloatVal.negInf else FloatVal.inf)
    else if body = ("nan").data then some FloatVal.nan
    else if underscoresOk body then parseDecBody sign (body.filter (fun ch => if ch = '_' then false else true))
    else none

/-- The age computation of _normalize_row (src/app/main.py lines 63-67):
age = int(float(v)) if v not in (None, "") else 0, with TypeError and
ValueError degrading to 0.  int() of an infinite float raises an
OverflowError which the except clause does not catch, hence the error
case.  Int.tdiv is truncation toward zero, as Python int() of a float. -/
def pyAge : Cell → Except String Int
  | .null => .ok 0
  | .str s =>
    if s = ("") then .ok 0
    else
      match parseFloat s with
      | some (.fin n k) => .ok (n.tdiv ((10 : Int) ^ k))
      | some .inf => .error ("cannot convert float infinity to integer")
      | some .negInf => .error ("cannot convert float infinity to integer")
      | some .nan => .ok 0
      | none => .ok 0
  | .int n => .ok n
  | .float q => .ok (q.num.tdiv (q.den : Int))
  | .bool b => .ok (if b then 1 else 0)

/-- The normalized record produced for one spreadsheet row. -/
structure NormUser where
  name : String
  email : String
  age : Int
deriving DecidableEq, Repr

/-- The column_map built by process_excel_job (main.py lines 139-143):
positional index of each required semantic column. -/
structure ColumnMap where
  name : Nat
  email : Nat
  age : Nat
deriving DecidableEq, Repr

/-- raw_row[i] on a Python tuple: IndexError when the index is out of
range (header indices are never negative). -/
def pyIndex (row : List Cell) (i : Nat) : Except String Cell :=
  match row.get? i with
  | some c => .ok c
  | none => .error ("tuple index out of range")

/-- str(x or "").strip(): the trimmed string fields of _normalize_row. -/
def strField (c : Cell) : String :=
  if c.truthy then pyStrip c.pyStr else ("")

/-- _normalize_row (src/app/main.py lines 56-69).  The Except layer
records the exceptions the Python function can raise: IndexError from
tuple indexing and OverflowError from int() on an infinite float. -/
def normalizeRow (row : List Cell) (cm : ColumnMap) : Except String NormUser := do
  let nCell ← pyIndex row cm.name
  let eCell ← pyIndex row cm.email
  let aCell ← pyIndex row cm.age
  let age ← pyAge aCell
  return { name := strField nCell, email := strField eCell, age := age }

/-- The blank row filter of process_excel_job (main.py line 154). -/
def isBlank (u : NormUser) : Prop :=
  u.name = ("") ∧ u.email = ("") ∧ u.age = 0

instance (u : NormUser) : Decidable (isBlank u) := by
  unfold isBlank; infer_instance

/-- One row of the upload_jobs table (src/app/models.py).  Timestamps are
abstract integer instants.  saved_path is kept optional so that the null
check of the cleanup query (crud.py line 84) is representable, although
the column is declared non nullable. -/
structure UploadJob where
  job_id : String
  filename : String
  saved_path : Option String
  status : String
  chunk_size : Nat
  inserted_rows : Nat
  error : Option String
  created_at : Int
  started_at : Option Int
  completed_at : Option Int
  file_deleted_at : Option Int
deriving DecidableEq, Repr

/-- db.query(UploadJob).filter(UploadJob.job_id == jid).update(...):
every matching ledger row is rewritten in place. -/
def updateJob (jobs : List UploadJob) (jid : String) (f : UploadJob → UploadJob) :
    List UploadJob :=
  jobs.map (fun j => if j.job_id = jid then f j else j)

/-- create_upload_job (src/app/crud.py lines 13-32). -/
def create_upload_job (jobs : List UploadJob) (jid filename saved_path : String)
    (chunk_size : Nat) (now : Int) : List UploadJob :=
  jobs ++ [{ job_id := jid, filename := filename, saved_path := some saved_path,
             status := ("queued"), chunk_size := chunk_size, inserted_rows := 0,
             error := none, created_at := now, started_at := none,
             completed_at := none, file_deleted_at := none }]

/-- get_upload_job (crud.py lines 35-36): first row with the id. -/
def get_upload_job (jobs : List UploadJob) (jid : String) : Option UploadJob :=
  jobs.find? (fun j => j.job_id == jid)

/-- set_upload_job_running (crud.py lines 39-43). -/
def set_upload_job_running (jobs : List UploadJob) (jid : String) (now : Int) :
    List UploadJob :=
  updateJob jobs jid
    (fun j => { j with status := ("running"), started_at := some now, error := none })

/-- set_upload_job_completed (crud.py lines 46-55). -/
def set_upload_job_completed (jobs : List UploadJob) (jid : String)
    (inserted_rows : Nat) (now : Int) : List UploadJob :=
  updateJob jobs jid
    (fun j => { j with status := ("completed"), inserted_rows := inserted_rows,
                       completed_at := some now, error := none })

/-- set_upload_job_failed (crud.py lines 58-66): status, error and
completed_at are written; inserted_rows is not touched. -/
def set_upload_job_failed (jobs : List UploadJob) (jid : String) (error : String)
    (now : Int) : List UploadJob :=
  updateJob jobs jid
    (fun j => { j with status := ("failed"), error := some error,
                       completed_at := some now })

/-- mark_upload_file_deleted (crud.py lines 69-73). -/
def mark_upload_file_deleted (jobs : List UploadJob) (jid : String) (now : Int) :
    List UploadJob :=
  updateJob jobs jid (fun j => { j with file_deleted_at := some now })

/-- get_jobs_for_cleanup (crud.py lines 76-88): completed_at non null and
at most the cutoff, file_deleted_at null, saved_path non null. -/
def get_jobs_for_cleanup (jobs : List UploadJob) (completed_before : Int) :
    List UploadJob :=
  jobs.filter (fun j =>
    (match j.completed_at with
     | some t => decide (t ≤ completed_before)
     | none => false)
    && j.file_deleted_at.isNone && j.saved_path.isSome)

/-- get_upload_jobs_by_status (crud.py lines 91-95). -/
def get_upload_jobs_by_status (jobs : List UploadJob) (statuses : List String) :
    List UploadJob :=
  if statuses.isEmpty then [] else jobs.filter (fun j => statuses.contains j.status)


/-- The header_map dict comprehension (main.py lines 124-128), kept as the
list of insertions in order: blank or null header cells are skipped, keys
are stripped then lowercased.  Dict containment is any binding, dict
lookup takes the last binding of a key. -/
def headerEntries (headers : List Cell) : List (String × Nat) :=
  headers.enum.filterMap fun p =>
    if p.2 ≠ Cell.null ∧ pyStrip p.2.pyStr ≠ ("")
    then some (pyLower (pyStrip p.2.pyStr), p.1) else none

/-- column in header_map. -/
def hasColumn (hm : List (String × Nat)) (c : String) : Bool :=
  hm.any (fun e => e.1 == c)

/-- header_map[c]: the value of the last binding (none models KeyError). -/
def dictGet (hm : List (String × Nat)) (c : String) : Option Nat :=
  match hm.reverse.find? (fun e => e.1 == c) with
  | some e => some e.2
  | none => none

/-- A single quote character, written by code point. -/
def squote : String := String.singleton (Char.ofNat 39)

/-- Python repr of a string (single quoted). -/
def pyStrRepr (s : String) : String := squote ++ s ++ squote

def pyJoin : List String → String
  | [] => ("")
  | [x] => pyStrRepr x
  | x :: y :: xs => pyStrRepr x ++ (", ") ++ pyJoin (y :: xs)

/-- Python repr of a list of strings. -/
def pyListRepr (xs : List String) : String := ("[") ++ pyJoin xs ++ ("]")

/-- Python repr of a tuple of strings (settings.REQUIRED_COLUMNS is a
tuple; a one element tuple prints a trailing comma). -/
def pyTupleRepr (xs : List String) : String :=
  match xs with
  | [x] => ("(") ++ pyStrRepr x ++ (",)")
  | _ => ("(") ++ pyJoin xs ++ (")")

/-- The message of the ValueError raised at main.py lines 134-137. -/
def schemaErrorMsg (required missing : List String) : String :=
  ("Excel must contain columns: ") ++ pyTupleRepr required ++ (". Missing: ")
    ++ pyListRepr missing

/-- str() of the KeyError raised at main.py lines 139-143 when a fixed
column is absent from the header yet not listed in REQUIRED_COLUMNS
(Python renders the key in quotes). -/
def keyErrorMsg (hm : List (String × Nat)) : String :=
  if (dictGet hm ("name")).isNone then pyStrRepr ("name")
  else if (dictGet hm ("email")).isNone then pyStrRepr ("email")
  else pyStrRepr ("age")

/-- State of the row loop of process_excel_job: the accumulating batch,
the local inserted_rows counter, the payloads of the bulk_insert_users
invocations so far, the rows committed to storage so far, and the pending
exception if one was raised. -/
structure LoopState where
  batch : List NormUser
  inserted : Nat
  calls : List (List NormUser)
  users : List NormUser
  err : Option String
deriving DecidableEq, Repr

/-- The row loop of process_excel_job (main.py lines 148-162).  sErr maps
the index of a bulk_insert_users invocation (numbered from 0 inside one
run) to the message of the StorageWriteError it raises, or none when the
write commits.  An exception aborts the loop at once. -/
def ingestRows (C : Nat) (cm : ColumnMap) (sErr : Nat → Option String) :
    List (List Cell) → LoopState → LoopState
  | [], st => st
  | row :: rest, st =>
    match normalizeRow row cm with
    | .error m => { st with err := some m }
    | .ok u =>
      if isBlank u then ingestRows C cm sErr rest st
      else
        let batch := st.batch ++ [u]
        if C ≤ batch.length then
          match sErr st.calls.length with
          | some m => { st with calls := st.calls ++ [batch], err := some m }
          | none =>
            ingestRows C cm sErr rest
              { batch := [], inserted := st.inserted + batch.length,
                calls := st.calls ++ [batch], users := st.users ++ batch, err := none }
        else ingestRows C cm sErr rest { st with batch := batch }

/-- Outcome of one run of process_excel_job: the ledger after the run,
the payload of every bulk_insert_users invocation in order, the rows this
run committed to storage (the users table gains exactly runUsers), and
the final value of the local inserted_rows counter. -/
structure EngineResult where
  jobs : List UploadJob
  runCalls : List (List NormUser)
  runUsers : List NormUser
  inserted : Nat
deriving DecidableEq, Repr

/-- process_excel_job (src/app/main.py lines 109-175).  file is the row
sequence the spreadsheet library yields for the saved workbook (the first
row, when present, is the header row); C is settings.EXCEL_CHUNK_SIZE and
required is settings.REQUIRED_COLUMNS as read during the run; sErr is the
storage write behavior.  Every exception of the try block is caught at
line 170 and recorded through set_upload_job_failed. -/
def process_excel_job (jobs : List UploadJob) (jid : String)
    (file : List (List Cell)) (C : Nat) (required : List String)
    (sErr : Nat → Option String) (now : Int) : EngineResult :=
  let jobs1 := set_upload_job_running jobs jid now
  match file with
  | [] =>
    { jobs := set_upload_job_failed jobs1 jid ("Excel file is empty") now,
      runCalls := [], runUsers := [], inserted := 0 }
  | headers :: dataRows =>
    let hm := headerEntries headers
    let missing := required.filter (fun c => !hasColumn hm c)
    if missing.isEmpty then
      match dictGet hm ("name"), dictGet hm ("email"), dictGet hm ("age") with
      | some ni, some ei, some ai =>
        let st := ingestRows C ⟨ni, ei, ai⟩ sErr dataRows
          { batch := [], inserted := 0, calls := [], users := [], err := none }
        match st.err with
        | some m =>
          { jobs := set_upload_job_failed jobs1 jid m now,
            runCalls := st.calls, runUsers := st.users, inserted := st.inserted }
        | none =>
          if st.batch.isEmpty then
            { jobs := set_upload_job_completed jobs1 jid st.inserted now,
              runCalls := st.calls, runUsers := st.users, inserted := st.inserted }
          else
            match sErr st.calls.length with
            | some m =>
              { jobs := set_upload_job_failed jobs1 jid m now,
                runCalls := st.calls ++ [st.batch], runUsers := st.users,
                inserted := st.inserted }
            | none =>
              { jobs := set_upload_job_completed jobs1 jid
                  (st.inserted + st.batch.length) now,
                runCalls := st.calls ++ [st.batch],
                runUsers := st.users ++ st.batch,
                inserted := st.inserted + st.batch.length }
      | _, _, _ =>
        { jobs := set_upload_job_failed jobs1 jid (keyErrorMsg hm) now,
          runCalls := [], runUsers := [], inserted := 0 }
    else
      { jobs := set_upload_job_failed jobs1 jid (schemaErrorMsg required missing) now,
        runCalls := [], runUsers := [], inserted := 0 }

/-- The blank row guarantee over one engine run: every payload handed to
bulk_insert_users holds only non blank users, every committed row is non
blank, and the local inserted_rows counter equals the number of committed
rows. -/
def NonBlankResult (res : EngineResult) : Prop :=
  (∀ b ∈ res.runCalls, ∀ u ∈ b, ¬ isBlank u)
  ∧ (∀ u ∈ res.runUsers, ¬ isBlank u)
  ∧ res.inserted = res.runUsers.length

/-- State of the retention sweep: the ledger, the set of existing files,
and the deleted_files counter. -/
structure SweepState where
  jobs : List UploadJob
  fs : List String
  deleted_files : Nat
deriving DecidableEq, Repr

/-- One iteration of the cleanup loop (main.py lines 96-104).  unlinkErr
says whether unlink raises OSError for a path; the except clause swallows
the error with continue, which also skips mark_upload_file_deleted for
that job.  A null saved_path cannot occur for a selected job (the query
filters it out); that dead branch is modelled as a no op. -/
def sweepStep (now : Int) (unlinkErr : String → Bool) (st : SweepState)
    (j : UploadJob) : SweepState :=
  match j.saved_path with
  | none => st
  | some sp =>
    if st.fs.contains sp then
      if unlinkErr sp then st
      else
        { jobs := mark_upload_file_deleted st.jobs j.job_id now,
          fs := st.fs.erase sp,
          deleted_files := st.deleted_files + 1 }
    else
      { jobs := mark_upload_file_deleted st.jobs j.job_id now,
        fs := st.fs, deleted_files := st.deleted_files }

/-- cleanup_expired_uploads (src/app/main.py lines 88-106).  retention is
settings.UPLOAD_FILE_RETENTION_HOURS in the abstract time unit and
enabled is settings.CLEANUP_EXPIRED_UPLOADS. -/
def cleanup_expired_uploads (jobs : List UploadJob) (fs : List String)
    (enabled : Bool) (retention now : Int) (unlinkErr : String → Bool) : SweepState :=
  if enabled then
    (get_jobs_for_cleanup jobs (now - retention)).foldl (sweepStep now unlinkErr)
      { jobs := jobs, fs := fs, deleted_files := 0 }
  else { jobs := jobs, fs := fs, deleted_files := 0 }

/-- One iteration of the queued job scan of _recover_jobs_after_restart
(src/app/main.py lines 193-211) over the pair of the ledger and the job
ids handed to process_excel_job threads so far.  A null saved_path cannot
occur for a created job; that dead branch is modelled as a missing
file. -/
def recoverQueuedStep (fs : List String) (now : Int)
    (p : List UploadJob × List String) (j : UploadJob) :
    List UploadJob × List String :=
  match j.saved_path with
  | some sp =>
    if fs.contains sp then (p.1, p.2 ++ [j.job_id])
    else
      (set_upload_job_failed p.1 j.job_id
        ("Queued job file not found after server restart") now, p.2)
  | none =>
    (set_upload_job_failed p.1 j.job_id
      ("Queued job file not found after server restart") now, p.2)

/-- _recover_jobs_after_restart (src/app/main.py lines 178-211): fail all
running jobs, then for each job still queued either fail it when its
saved file is gone or hand it to a new process_excel_job thread.  The
returned list holds the job ids handed to threads, in spawn order. -/
def recover_jobs_after_restart (jobs : List UploadJob) (fs : List String)
    (now : Int) : List UploadJob × List String :=
  let interrupted := get_upload_jobs_by_status jobs [("running")]
  let jobs1 := interrupted.foldl
    (fun acc j =>
      set_upload_job_failed acc j.job_id ("Job interrupted because server restarted") now)
    jobs
  let queued := get_upload_jobs_by_status jobs1 [("queued")]
  queued.foldl (recoverQueuedStep fs now) (jobs1, [])

/-- Greedy accumulation of a stream into chunks: the pure counterpart of
the row loop, used to state and prove its properties.  Returns the full
chunks flushed in order and the leftover partial batch. -/
def chunkAccum (C : Nat) (acc : List NormUser) :
    List NormUser → List (List NormUser) × List NormUser
  | [] => ([], acc)
  | x :: xs =>
    let acc2 := acc ++ [x]
    if C ≤ acc2.length then
      let r := chunkAccum C [] xs
      (acc2 :: r.1, r.2)
    else chunkAccum C acc2 xs

/-- The normalized, non blank users the data rows yield, in order (the
rows the engine writes when nothing raises). -/
def validUsers (rows : List (List Cell)) (cm : ColumnMap) : List NormUser :=
  rows.filterMap fun r =>
    match normalizeRow r cm with
    | .ok u => if isBlank u then none else some u
    | .error _ => none

/-- Modelled from the spec (cleanup eligibility, spec 4.6 and C9): the
job completed at least the retention window before now, its file is not
yet flagged deleted, and it has a saved path.  Stated from the spec words
to compare with the query get_jobs_for_cleanup. -/
def cleanupEligible (retention now : Int) (j : UploadJob) : Prop :=
  (∃ t, j.completed_at = some t ∧ t + retention ≤ now)
  ∧ j.file_deleted_at = none ∧ j.saved_path.isSome

/-- Fixture: the default header row name, email, age. -/
def exHeader : List Cell := [Cell.str ("name"), Cell.str ("email"), Cell.str ("age")]

/-- Fixture: a plainly non blank data row. -/
def exRow (i : Nat) : List Cell :=
  [Cell.str (("u") ++ toString i), Cell.str (("e") ++ toString i), Cell.int 1]

/-- Fixture: the default required columns (config.py line 44-48). -/
def exRequired : List String := [("name"), ("email"), ("age")]

/-- Fixture: a fresh ledger with one job captured with chunk_size 2. -/
def exLedger : List UploadJob := create_upload_job [] ("j1") ("f.xlsx") ("p") 2 0

/-- Fixture: storage behavior that raises on the second bulk write. -/
def exStorageFailAt1 : Nat → Option String :=
  fun k => if k = 1 then some ("disk full") else none

/-- Fixture: two cleanup eligible terminal jobs with distinct files. -/
def exCleanupJobs : List UploadJob :=
  [{ job_id := ("a"), filename := ("fa"), saved_path := some ("pa"), status := ("failed"),
     chunk_size := 2, inserted_rows := 0, error := some ("x"), created_at := 0,
     started_at := none, completed_at := some 0, file_deleted_at := none },
   { job_id := ("b"), filename := ("fb"), saved_path := some ("pb"), status := ("completed"),
     chunk_size := 2, inserted_rows := 3, error := none, created_at := 0,
     started_at := none, completed_at := some 0, file_deleted_at := none }]

/-- Fixture: one interrupted running job and two queued jobs, of which
only q1 still has its file on disk. -/
def exRecoveryJobs : List UploadJob :=
  [{ job_id := ("r1"), filename := ("f1"), saved_path := some ("p1"), status := ("running"),
     chunk_size := 2, inserted_rows := 1, error := none, created_at := 0,
     started_at := some 1, completed_at := none, file_deleted_at := none },
   { job_id := ("q1"), filename := ("f2"), saved_path := some ("p2"), status := ("queued"),
     chunk_size := 2, inserted_rows := 0, error := none, created_at := 0,
     started_at := none, completed_at := none, file_deleted_at := none },
   { job_id := ("q2"), filename := ("f3"), saved_path := some ("p3"), status := ("queued"),
     chunk_size := 2, inserted_rows := 0, error := none, created_at := 0,
     started_at := none, completed_at := none, file_deleted_at := none }]

/-! ### Ledger lemmas -/

theorem get_upload_job_map (g : UploadJob → UploadJob)
    (hg : ∀ j, (g j).job_id = j.job_id) (L : List UploadJob) (jid : String) :
    get_upload_job (L.map g) jid = (get_upload_job L jid).map g := by
  unfold get_upload_job
  rw [List.find?_map]
  have h : ((fun j : UploadJob => j.job_id == jid) ∘ g)
      = (fun j : UploadJob => j.job_id == jid) := by
    funext j
    simp only [Function.comp_apply]
    rw [hg]
  rw [h]

theorem updateJob_eq_map (L : List UploadJob) (jid : String) (f : UploadJob → UploadJob) :
    updateJob L jid f = L.map (fun j => if j.job_id = jid then f j else j) := rfl

theorem get_updateJob (L : List UploadJob) (jid : String) (f : UploadJob → UploadJob)
    (hf : ∀ j, (f j).job_id = j.job_id) (jid2 : String) :
    get_upload_job (updateJob L jid f) jid2
      = (get_upload_job L jid2).map (fun j => if j.job_id = jid then f j else j) := by
  apply get_upload_job_map
  intro j
  by_cases h : j.job_id = jid <;> simp [h, hf]

theorem get_updateJob_self (L : List UploadJob) (jid : String)
    (f : UploadJob → UploadJob) (hf : ∀ j, (f j).job_id = j.job_id)
    (j : UploadJob) (h : get_upload_job L jid = some j) :
    get_upload_job (updateJob L jid f) jid = some (f j) := by
  rw [get_updateJob L jid f hf jid, h]
  unfold get_upload_job at h
  have hj := List.find?_some h
  simp only [beq_iff_eq] at hj
  simp [hj]

theorem get_updateJob_other (L : List UploadJob) (jid : String)
    (f : UploadJob → UploadJob) (hf : ∀ j, (f j).job_id = j.job_id)
    (jid2 : String) (hne : jid2 ≠ jid) :
    get_upload_job (updateJob L jid f) jid2 = get_upload_job L jid2 := by
  rw [get_updateJob L jid f hf jid2]
  cases h : get_upload_job L jid2 with
  | none => rfl
  | some j =>
    unfold get_upload_job at h
    have hj := List.find?_some h
    simp only [beq_iff_eq] at hj
    have hne2 : j.job_id ≠ jid := by rw [hj]; exact hne
    simp [hne2]

theorem foldl_updateJob_eq_map (f : UploadJob → UploadJob)
    (hf : ∀ j, (f j).job_id = j.job_id) (hid : ∀ j, f (f j) = f j)
    (ids : List String) :
    ∀ (L : List UploadJob),
      ids.foldl (fun acc i => updateJob acc i f) L
        = L.map (fun j => if j.job_id ∈ ids then f j else j) := by
  induction ids with
  | nil =>
    intro L
    simp
  | cons i ids ih =>
    intro L
    rw [List.foldl_cons, ih (updateJob L i f), updateJob_eq_map, List.map_map]
    congr 1
    funext j
    by_cases h1 : j.job_id = i
    · by_cases h2 : j.job_id ∈ ids <;>
        simp [Function.comp, h1, h2, hf, hid, List.mem_cons]
    · by_cases h2 : j.job_id ∈ ids <;>
        simp [Function.comp, h1, h2, List.mem_cons]

theorem get_upload_job_of_mem (L : List UploadJob) (j : UploadJob)
    (hnd : (L.map UploadJob.job_id).Nodup) (hmem : j ∈ L) :
    get_upload_job L j.job_id = some j := by
  induction L with
  | nil => cases hmem
  | cons k rest ih =>
    rw [List.map_cons, List.nodup_cons] at hnd
    rcases List.mem_cons.mp hmem with h | h
    · subst h
      unfold get_upload_job
      rw [List.find?_cons_of_pos _ (by simp)]
    · have hne : k.job_id ≠ j.job_id := by
        intro he
        exact hnd.1 (he ▸ List.mem_map_of_mem UploadJob.job_id h)
      unfold get_upload_job
      rw [List.find?_cons_of_neg _ (by simp [hne])]
      exact ih hnd.2 h

theorem UploadJob_eq_of_mem (L : List UploadJob)
    (hnd : (L.map UploadJob.job_id).Nodup) (j y : UploadJob)
    (hj : j ∈ L) (hy : y ∈ L) (h : y.job_id = j.job_id) : y = j := by
  have h1 := get_upload_job_of_mem L j hnd hj
  have h2 := get_upload_job_of_mem L y hnd hy
  rw [h, h1] at h2
  exact (Option.some.inj h2).symm

theorem foldl_if_filter {α β : Type} (p : α → Bool) (g : β → α → β) (l : List α) :
    ∀ (init : β),
      l.foldl (fun b a => if p a then g b a else b) init
        = (l.filter p).foldl g init := by
  induction l with
  | nil => intro init; rfl
  | cons a l ih =>
    intro init
    by_cases h : p a = true
    · simp [List.foldl_cons, List.filter_cons, h, ih]
    · simp [List.foldl_cons, List.filter_cons, h, ih]

/-! ### Chunking lemmas -/

theorem chunkAccum_cons_flush (C : Nat) (acc : List NormUser) (x : NormUser)
    (xs : List NormUser) (h : C ≤ (acc ++ [x]).length) :
    chunkAccum C acc (x :: xs)
      = ((acc ++ [x]) :: (chunkAccum C [] xs).1, (chunkAccum C [] xs).2) := by
  simp only [chunkAccum]
  rw [if_pos h]

theorem chunkAccum_cons_noflush (C : Nat) (acc : List NormUser) (x : NormUser)
    (xs : List NormUser) (h : ¬ C ≤ (acc ++ [x]).length) :
    chunkAccum C acc (x :: xs) = chunkAccum C (acc ++ [x]) xs := by
  simp only [chunkAccum]
  rw [if_neg h]

theorem chunkAccum_spec (C : Nat) (hC : 0 < C) (l : List NormUser) :
    ∀ (acc : List NormUser), acc.length < C →
      ((chunkAccum C acc l).1.map List.length
          = List.replicate ((acc.length + l.length) / C) C)
      ∧ (chunkAccum C acc l).2.length = (acc.length + l.length) % C := by
  induction l with
  | nil =>
    intro acc hacc
    constructor
    · simp [chunkAccum, Nat.div_eq_of_lt hacc]
    · simp [chunkAccum, Nat.mod_eq_of_lt hacc]
  | cons x xs ih =>
    intro acc hacc
    by_cases h : C ≤ (acc ++ [x]).length
    · have hlen : (acc ++ [x]).length = C := by
        simp only [List.length_append, List.length_singleton] at h ⊢
        omega
      have hIH := ih [] (by simpa using hC)
      rw [chunkAccum_cons_flush C acc x xs h]
      have harith : acc.length + (xs.length + 1) = xs.length + C := by
        simp only [List.length_append, List.length_singleton] at hlen
        omega
      constructor
      · simp only [List.map_cons, hlen, List.length_cons, harith,
          Nat.add_div_right _ hC, List.replicate_succ]
        rw [(by simpa using hIH.1 : (chunkAccum C [] xs).1.map List.length
            = List.replicate (xs.length / C) C)]
      · simp only [List.length_cons, harith, Nat.add_mod_right]
        simpa using hIH.2
    · have hlt : (acc ++ [x]).length < C := Nat.lt_of_not_le h
      have hIH := ih (acc ++ [x]) hlt
      rw [chunkAccum_cons_noflush C acc x xs h]
      have harith : (acc ++ [x]).length + xs.length = acc.length + (xs.length + 1) := by
        simp only [List.length_append, List.length_singleton]
        omega
      rw [harith] at hIH
      simpa using hIH

/-! ### Row loop lemmas -/

theorem ingestRows_of_ok (C : Nat) (cm : ColumnMap) (rows : List (List Cell))
    (hok : ∀ r ∈ rows, (normalizeRow r cm).isOk = true) :
    ∀ (b : List NormUser) (i : Nat) (cs : List (List NormUser)) (us : List NormUser),
      ingestRows C cm (fun _ => none) rows ⟨b, i, cs, us, none⟩
        = { batch := (chunkAccum C b (validUsers rows cm)).2,
            inserted := i + ((chunkAccum C b (validUsers rows cm)).1.map List.length).sum,
            calls := cs ++ (chunkAccum C b (validUsers rows cm)).1,
            users := us ++ (chunkAccum C b (validUsers rows cm)).1.flatten,
            err := none } := by
  induction rows with
  | nil =>
    intro b i cs us
    simp [ingestRows, chunkAccum, validUsers]
  | cons r rs ih =>
    intro b i cs us
    have hr : (normalizeRow r cm).isOk = true := hok r (by simp)
    have hrs : ∀ x ∈ rs, (normalizeRow x cm).isOk = true :=
      fun x hx => hok x (by simp [hx])
    cases hnr : normalizeRow r cm with
    | error m =>
      rw [hnr] at hr
      simp [Except.isOk, Except.toBool] at hr
    | ok u =>
      by_cases hb : isBlank u
      · have hv : validUsers (r :: rs) cm = validUsers rs cm := by
          simp [validUsers, hnr, hb]
        have hstep : ingestRows C cm (fun _ => none) (r :: rs) ⟨b, i, cs, us, none⟩
            = ingestRows C cm (fun _ => none) rs ⟨b, i, cs, us, none⟩ := by
          simp [ingestRows, hnr, hb]
        rw [hstep, hv]
        exact ih hrs b i cs us
      · have hv : validUsers (r :: rs) cm = u :: validUsers rs cm := by
          simp [validUsers, hnr, hb]
        by_cases hfl : C ≤ (b ++ [u]).length
        · have hfl2 : C ≤ b.length + 1 := by simpa using hfl
          have hstep : ingestRows C cm (fun _ => none) (r :: rs) ⟨b, i, cs, us, none⟩
              = ingestRows C cm (fun _ => none) rs
                  ⟨[], i + (b ++ [u]).length, cs ++ [b ++ [u]], us ++ (b ++ [u]), none⟩ := by
            simp [ingestRows, hnr, hb, hfl2]
          rw [hstep, ih hrs, hv, chunkAccum_cons_flush C b u _ hfl]
          simp [List.append_assoc, Nat.add_assoc]
        · have hfl2 : ¬ C ≤ b.length + 1 := by simpa using hfl
          have hstep : ingestRows C cm (fun _ => none) (r :: rs) ⟨b, i, cs, us, none⟩
              = ingestRows C cm (fun _ => none) rs ⟨b ++ [u], i, cs, us, none⟩ := by
            simp [ingestRows, hnr, hb, hfl2]
          rw [hstep, ih hrs, hv, chunkAccum_cons_noflush C b u _ hfl]

theorem ingestRows_nonblank (C : Nat) (cm : ColumnMap) (sErr : Nat → Option String)
    (rows : List (List Cell)) :
    ∀ (st : LoopState),
      (∀ u ∈ st.batch, ¬ isBlank u) →
      (∀ bb ∈ st.calls, ∀ u ∈ bb, ¬ isBlank u) →
      (∀ u ∈ st.users, ¬ isBlank u) →
      st.inserted = st.users.length →
      (∀ u ∈ (ingestRows C cm sErr rows st).batch, ¬ isBlank u)
      ∧ (∀ bb ∈ (ingestRows C cm sErr rows st).calls, ∀ u ∈ bb, ¬ isBlank u)
      ∧ (∀ u ∈ (ingestRows C cm sErr rows st).users, ¬ isBlank u)
      ∧ (ingestRows C cm sErr rows st).inserted
          = (ingestRows C cm sErr rows st).users.length := by
  induction rows with
  | nil =>
    intro st h1 h2 h3 h4
    exact ⟨h1, h2, h3, h4⟩
  | cons r rs ih =>
    intro st h1 h2 h3 h4
    cases hnr : normalizeRow r cm with
    | error m =>
      have hres : ingestRows C cm sErr (r :: rs) st = { st with err := some m } := by
        simp [ingestRows, hnr]
      rw [hres]
      exact ⟨h1, h2, h3, h4⟩
    | ok u =>
      by_cases hb : isBlank u
      · have hres : ingestRows C cm sErr (r :: rs) st = ingestRows C cm sErr rs st := by
          simp [ingestRows, hnr, hb]
        rw [hres]
        exact ih st h1 h2 h3 h4
      · have hbatch : ∀ v ∈ st.batch ++ [u], ¬ isBlank v := by
          intro v hv
          rcases List.mem_append.mp hv with h | h
          · exact h1 v h
          · rw [List.mem_singleton.mp h]
            exact hb
        by_cases hfl : C ≤ st.batch.length + 1
        · cases hw : sErr st.calls.length with
          | some m =>
            have hres : ingestRows C cm sErr (r :: rs) st
                = { st with calls := st.calls ++ [st.batch ++ [u]], err := some m } := by
              simp [ingestRows, hnr, hb, hfl, hw]
            rw [hres]
            refine ⟨h1, ?_, h3, h4⟩
            intro bb hbb
            rcases List.mem_append.mp hbb with h | h
            · exact h2 bb h
            · rw [List.mem_singleton.mp h]
              exact hbatch
          | none =>
            have hres : ingestRows C cm sErr (r :: rs) st
                = ingestRows C cm sErr rs
                    { batch := [], inserted := st.inserted + (st.batch ++ [u]).length,
                      calls := st.calls ++ [st.batch ++ [u]],
                      users := st.users ++ (st.batch ++ [u]), err := none } := by
              simp [ingestRows, hnr, hb, hfl, hw]
            rw [hres]
            apply ih
            · intro v hv
              cases hv
            · intro bb hbb
              rcases List.mem_append.mp hbb with h | h
              · exact h2 bb h
              · rw [List.mem_singleton.mp h]
                exact hbatch
            · intro v hv
              rcases List.mem_append.mp hv with h | h
              · exact h3 v h
              · exact hbatch v h
            · simp [h4]
        · have hres : ingestRows C cm sErr (r :: rs) st
              = ingestRows C cm sErr rs { st with batch := st.batch ++ [u] } := by
            simp [ingestRows, hnr, hb, hfl]
          rw [hres]
          apply ih
          · exact hbatch
          · exact h2
          · exact h3
          · exact h4

/-! ### Engine unfolding lemmas -/

theorem process_run_fail_mid (jobs : List UploadJob) (jid : String)
    (headers : List Cell) (dataRows : List (List Cell)) (C : Nat)
    (required : List String) (sErr : Nat → Option String) (now : Int)
    (ni ei ai : Nat) (m : String)
    (hmiss : required.filter (fun c => !hasColumn (headerEntries headers) c) = [])
    (hn : dictGet (headerEntries headers) ("name") = some ni)
    (he : dictGet (headerEntries headers) ("email") = some ei)
    (ha : dictGet (headerEntries headers) ("age") = some ai)
    (herr : (ingestRows C ⟨ni, ei, ai⟩ sErr dataRows ⟨[], 0, [], [], none⟩).err = some m) :
    process_excel_job jobs jid (headers :: dataRows) C required sErr now
      = { jobs := set_upload_job_failed (set_upload_job_running jobs jid now) jid m now,
          runCalls := (ingestRows C ⟨ni, ei, ai⟩ sErr dataRows ⟨[], 0, [], [], none⟩).calls,
          runUsers := (ingestRows C ⟨ni, ei, ai⟩ sErr dataRows ⟨[], 0, [], [], none⟩).users,
          inserted := (ingestRows C ⟨ni, ei, ai⟩ sErr dataRows ⟨[], 0, [], [], none⟩).inserted } := by
  simp [process_excel_job, hmiss, hn, he, ha, herr]

theorem process_run_complete_nobatch (jobs : List UploadJob) (jid : String)
    (headers : List Cell) (dataRows : List (List Cell)) (C : Nat)
    (required : List String) (sErr : Nat → Option String) (now : Int)
    (ni ei ai : Nat)
    (hmiss : required.filter (fun c => !hasColumn (headerEntries headers) c) = [])
    (hn : dictGet (headerEntries headers) ("name") = some ni)
    (he : dictGet (headerEntries headers) ("email") = some ei)
    (ha : dictGet (headerEntries headers) ("age") = some ai)
    (herr : (ingestRows C ⟨ni, ei, ai⟩ sErr dataRows ⟨[], 0, [], [], none⟩).err = none)
    (hbe : (ingestRows C ⟨ni, ei, ai⟩ sErr dataRows ⟨[], 0, [], [], none⟩).batch = []) :
    process_excel_job jobs jid (headers :: dataRows) C required sErr now
      = { jobs := set_upload_job_completed (set_upload_job_running jobs jid now) jid
            (ingestRows C ⟨ni, ei, ai⟩ sErr dataRows ⟨[], 0, [], [], none⟩).inserted now,
          runCalls := (ingestRows C ⟨ni, ei, ai⟩ sErr dataRows ⟨[], 0, [], [], none⟩).calls,
          runUsers := (ingestRows C ⟨ni, ei, ai⟩ sErr dataRows ⟨[], 0, [], [], none⟩).users,
          inserted := (ingestRows C ⟨ni, ei, ai⟩ sErr dataRows ⟨[], 0, [], [], none⟩).inserted } := by
  simp [process_excel_job, hmiss, hn, he, ha, herr, hbe]

theorem process_run_flush_ok (jobs : List UploadJob) (jid : String)
    (headers : List Cell) (dataRows : List (List Cell)) (C : Nat)
    (required : List String) (sErr : Nat → Option String) (now : Int)
    (ni ei ai : Nat)
    (hmiss : required.filter (fun c => !hasColumn (headerEntries headers) c) = [])
    (hn : dictGet (headerEntries headers) ("name") = some ni)
    (he : dictGet (headerEntries headers) ("email") = some ei)
    (ha : dictGet (headerEntries headers) ("age") = some ai)
    (herr : (ingestRows C ⟨ni, ei, ai⟩ sErr dataRows ⟨[], 0, [], [], none⟩).err = none)
    (hbe : (ingestRows C ⟨ni, ei, ai⟩ sErr dataRows ⟨[], 0, [], [], none⟩).batch ≠ [])
    (hw : sErr (ingestRows C ⟨ni, ei, ai⟩ sErr dataRows ⟨[], 0, [], [], none⟩).calls.length
        = none) :
    process_excel_job jobs jid (headers :: dataRows) C required sErr now
      = { jobs := set_upload_job_completed (set_upload_job_running jobs jid now) jid
            ((ingestRows C ⟨ni, ei, ai⟩ sErr dataRows ⟨[], 0, [], [], none⟩).inserted
              + (ingestRows C ⟨ni, ei, ai⟩ sErr dataRows ⟨[], 0, [], [], none⟩).batch.length)
            now,
          runCalls := (ingestRows C ⟨ni, ei, ai⟩ sErr dataRows ⟨[], 0, [], [], none⟩).calls
            ++ [(ingestRows C ⟨ni, ei, ai⟩ sErr dataRows ⟨[], 0, [], [], none⟩).batch],
          runUsers := (ingestRows C ⟨ni, ei, ai⟩ sErr dataRows ⟨[], 0, [], [], none⟩).users
            ++ (ingestRows C ⟨ni, ei, ai⟩ sErr dataRows ⟨[], 0, [], [], none⟩).batch,
          inserted := (ingestRows C ⟨ni, ei, ai⟩ sErr dataRows ⟨[], 0, [], [], none⟩).inserted
            + (ingestRows C ⟨ni, ei, ai⟩ sErr dataRows ⟨[], 0, [], [], none⟩).batch.length } := by
  simp [process_excel_job, hmiss, hn, he, ha, herr, hbe, hw]

theorem process_run_schema_fail (jobs : List UploadJob) (jid : String)
    (headers : List Cell) (dataRows : List (List Cell)) (C : Nat)
    (required : List String) (sErr : Nat → Option String) (now : Int)
    (hmiss : required.filter (fun c => !hasColumn (headerEntries headers) c) ≠ []) :
    process_excel_job jobs jid (headers :: dataRows) C required sErr now
      = { jobs := set_upload_job_failed (set_upload_job_running jobs jid now) jid
            (schemaErrorMsg required
              (required.filter (fun c => !hasColumn (headerEntries headers) c))) now,
          runCalls := [], runUsers := [], inserted := 0 } := by
  simp [process_excel_job, hmiss]

/-! ### Ledger transform composition lemmas -/

theorem get_double_update (L : List UploadJob) (jid : String)
    (f1 f2 : UploadJob → UploadJob) (hf1 : ∀ x, (f1 x).job_id = x.job_id)
    (hf2 : ∀ x, (f2 x).job_id = x.job_id) :
    get_upload_job (updateJob (updateJob L jid f1) jid f2) jid
      = (get_upload_job L jid).map (fun j => f2 (f1 j)) := by
  rw [get_updateJob (updateJob L jid f1) jid f2 hf2 jid,
      get_updateJob L jid f1 hf1 jid, Option.map_map]
  cases h : get_upload_job L jid with
  | none => rfl
  | some j =>
    unfold get_upload_job at h
    have hj := List.find?_some h
    simp only [beq_iff_eq] at hj
    simp [Function.comp, hj, hf1]

theorem get_after_fail_run (jobs : List UploadJob) (jid : String) (m : String) (now : Int) :
    get_upload_job (set_upload_job_failed (set_upload_job_running jobs jid now) jid m now) jid
      = (get_upload_job jobs jid).map (fun j =>
          { j with status := ("failed"), started_at := some now,
                   error := some m, completed_at := some now }) := by
  unfold set_upload_job_failed set_upload_job_running
  rw [get_double_update jobs jid
      (fun j => { j with status := ("running"), started_at := some now, error := none })
      (fun j => { j with status := ("failed"), error := some m, completed_at := some now })
      (fun x => rfl) (fun x => rfl)]

theorem get_after_complete_run (jobs : List UploadJob) (jid : String) (n : Nat) (now : Int) :
    get_upload_job (set_upload_job_completed (set_upload_job_running jobs jid now) jid n now) jid
      = (get_upload_job jobs jid).map (fun j =>
          { j with status := ("completed"), inserted_rows := n, started_at := some now,
                   error := none, completed_at := some now }) := by
  unfold set_upload_job_completed set_upload_job_running
  rw [get_double_update jobs jid
      (fun j => { j with status := ("running"), started_at := some now, error := none })
      (fun j => { j with status := ("completed"), inserted_rows := n, completed_at := some now,
                         error := none })
      (fun x => rfl) (fun x => rfl)]

/-! ### Query membership lemmas -/

theorem mem_get_upload_jobs_by_status (L : List UploadJob) (ss : List String)
    (j : UploadJob) :
    j ∈ get_upload_jobs_by_status L ss ↔ j ∈ L ∧ j.status ∈ ss := by
  unfold get_upload_jobs_by_status
  by_cases h : ss.isEmpty = true
  · have hs : ss = [] := by simpa using h
    simp [hs]
  · simp [h, List.mem_filter]

theorem mem_get_jobs_for_cleanup (L : List UploadJob) (cutoff : Int) (j : UploadJob) :
    j ∈ get_jobs_for_cleanup L cutoff
      ↔ j ∈ L ∧ (∃ t, j.completed_at = some t ∧ t ≤ cutoff)
          ∧ j.file_deleted_at = none ∧ j.saved_path.isSome = true := by
  unfold get_jobs_for_cleanup
  rw [List.mem_filter]
  constructor
  · rintro ⟨hmem, hp⟩
    refine ⟨hmem, ?_⟩
    cases hc : j.completed_at with
    | none =>
      rw [hc] at hp
      simp at hp
    | some t =>
      rw [hc] at hp
      simp only [Bool.and_eq_true, decide_eq_true_eq, Option.isNone_iff_eq_none] at hp
      exact ⟨⟨t, rfl, hp.1.1⟩, hp.1.2, hp.2⟩
  · rintro ⟨hmem, ⟨t, ht, hle⟩, hdel, hsp⟩
    refine ⟨hmem, ?_⟩
    rw [ht]
    simp only [Bool.and_eq_true, decide_eq_true_eq, Option.isNone_iff_eq_none]
    exact ⟨⟨hle, hdel⟩, hsp⟩

/-! ### Retention sweep lemmas -/

theorem sweepStep_fs_subset (now : Int) (unlinkErr : String → Bool)
    (st : SweepState) (k : UploadJob) :
    (sweepStep now unlinkErr st k).fs ⊆ st.fs := by
  unfold sweepStep
  cases k.saved_path with
  | none => exact fun y hy => hy
  | some sp =>
    by_cases hin : st.fs.contains sp = true
    · by_cases hue : unlinkErr sp = true
      · simp only [hin, hue, if_true]
        exact fun y hy => hy
      · simp only [hin, hue, if_true, if_false, Bool.false_eq_true]
        exact fun y hy => List.erase_subset _ _ hy
    · simp only [hin, Bool.false_eq_true, if_false]
      exact fun y hy => hy

theorem sweep_fold_fs_subset (now : Int) (unlinkErr : String → Bool)
    (cands : List UploadJob) :
    ∀ (st : SweepState),
      (cands.foldl (sweepStep now unlinkErr) st).fs ⊆ st.fs := by
  induction cands with
  | nil => intro st y hy; exact hy
  | cons k rest ih =>
    intro st y hy
    exact sweepStep_fs_subset now unlinkErr st k (ih (sweepStep now unlinkErr st k) hy)

theorem sweepStep_get_other (now : Int) (unlinkErr : String → Bool)
    (st : SweepState) (k : UploadJob) (jid : String) (hk : k.job_id ≠ jid) :
    get_upload_job (sweepStep now unlinkErr st k).jobs jid
      = get_upload_job st.jobs jid := by
  unfold sweepStep
  cases k.saved_path with
  | none => rfl
  | some sp =>
    have hmark : get_upload_job (mark_upload_file_deleted st.jobs k.job_id now) jid
        = get_upload_job st.jobs jid := by
      unfold mark_upload_file_deleted
      exact get_updateJob_other st.jobs k.job_id
        (fun x => { x with file_deleted_at := some now }) (fun x => rfl) jid (Ne.symm hk)
    by_cases hin : st.fs.contains sp = true
    · by_cases hue : unlinkErr sp = true
      · simp only [hin, hue, if_true]
      · simp only [hin, hue, if_true, Bool.false_eq_true, if_false]
        exact hmark
    · simp only [hin, Bool.false_eq_true, if_false]
      exact hmark

theorem sweep_fold_get_not_mem (now : Int) (unlinkErr : String → Bool)
    (cands : List UploadJob) :
    ∀ (st : SweepState) (jid : String), (∀ k ∈ cands, k.job_id ≠ jid) →
      get_upload_job (cands.foldl (sweepStep now unlinkErr) st).jobs jid
        = get_upload_job st.jobs jid := by
  induction cands with
  | nil => intro st jid _; rfl
  | cons k rest ih =>
    intro st jid h
    rw [List.foldl_cons, ih _ jid (fun x hx => h x (List.mem_cons_of_mem k hx)),
        sweepStep_get_other now unlinkErr st k jid (h k (List.mem_cons_self k rest))]

theorem sweep_fold_marks (now : Int) (unlinkErr : String → Bool)
    (cands : List UploadJob) :
    ∀ (st : SweepState) (j : UploadJob) (sp : String),
      (cands.map UploadJob.job_id).Nodup → j ∈ cands → j.saved_path = some sp →
      (unlinkErr sp = false ∨ sp ∉ st.fs) →
      get_upload_job (cands.foldl (sweepStep now unlinkErr) st).jobs j.job_id
        = (get_upload_job st.jobs j.job_id).map
            (fun x => { x with file_deleted_at := some now }) := by
  induction cands with
  | nil =>
    intro st j sp _ hj
    cases hj
  | cons k rest ih =>
    intro st j sp hnd hj hsp hcond
    rw [List.map_cons, List.nodup_cons] at hnd
    rcases List.mem_cons.mp hj with he | hmem
    · subst he
      have hstep : get_upload_job (sweepStep now unlinkErr st j).jobs j.job_id
          = (get_upload_job st.jobs j.job_id).map
              (fun x => { x with file_deleted_at := some now }) := by
        unfold sweepStep
        rw [hsp]
        have hmark : get_upload_job (mark_upload_file_deleted st.jobs j.job_id now) j.job_id
            = (get_upload_job st.jobs j.job_id).map
                (fun x => { x with file_deleted_at := some now }) := by
          unfold mark_upload_file_deleted
          rw [get_updateJob st.jobs j.job_id
            (fun x => { x with file_deleted_at := some now }) (fun x => rfl) j.job_id]
          cases h : get_upload_job st.jobs j.job_id with
          | none => rfl
          | some y =>
            unfold get_upload_job at h
            have hy := List.find?_some h
            simp only [beq_iff_eq] at hy
            simp [hy]
        by_cases hin : st.fs.contains sp = true
        · have hue : unlinkErr sp = false := by
            rcases hcond with h | h
            · exact h
            · exact absurd (by simpa using hin) h
          simp only [hin, hue, if_true, Bool.false_eq_true, if_false]
          exact hmark
        · simp only [hin, Bool.false_eq_true, if_false]
          exact hmark
      have hrest : ∀ k2 ∈ rest, k2.job_id ≠ j.job_id := by
        intro k2 hk2 he
        exact hnd.1 (he ▸ List.mem_map_of_mem UploadJob.job_id hk2)
      rw [List.foldl_cons,
        sweep_fold_get_not_mem now unlinkErr rest _ j.job_id hrest, hstep]
    · have hk : k.job_id ≠ j.job_id := by
        intro he
        exact hnd.1 (he ▸ List.mem_map_of_mem UploadJob.job_id hmem)
      have hcond2 : unlinkErr sp = false ∨ sp ∉ (sweepStep now unlinkErr st k).fs := by
        rcases hcond with h | h
        · exact Or.inl h
        · exact Or.inr (fun hx => h (sweepStep_fs_subset now unlinkErr st k hx))
      rw [List.foldl_cons, ih _ j sp hnd.2 hmem hsp hcond2,
        sweepStep_get_other now unlinkErr st k j.job_id hk]

/-! ### Recovery lemmas -/

theorem foldl_fail_eq_map (msg : String) (now : Int) (todo : List UploadJob)
    (L : List UploadJob) :
    todo.foldl (fun acc j => set_upload_job_failed acc j.job_id msg now) L
      = L.map (fun x =>
          if x.job_id ∈ todo.map UploadJob.job_id
          then { x with status := ("failed"), error := some msg, completed_at := some now }
          else x) := by
  have h1 : todo.foldl (fun acc j => set_upload_job_failed acc j.job_id msg now) L
      = (todo.map UploadJob.job_id).foldl
          (fun acc i => updateJob acc i
            (fun x => { x with status := ("failed"), error := some msg,
                               completed_at := some now })) L := by
    rw [List.foldl_map]
    rfl
  rw [h1, foldl_updateJob_eq_map
    (fun x => { x with status := ("failed"), error := some msg, completed_at := some now })
    (fun x => rfl) (fun x => rfl) (todo.map UploadJob.job_id) L]

theorem map_job_id_of_preserve (g : UploadJob → UploadJob)
    (hg : ∀ j, (g j).job_id = j.job_id) (L : List UploadJob) :
    (L.map g).map UploadJob.job_id = L.map UploadJob.job_id := by
  rw [List.map_map]
  congr 1
  funext j
  exact hg j

theorem recoverQueuedStep_get_other (fs : List String) (now : Int)
    (p : List UploadJob × List String) (k : UploadJob) (jid : String)
    (hk : k.job_id ≠ jid) :
    get_upload_job (recoverQueuedStep fs now p k).1 jid = get_upload_job p.1 jid := by
  have hfail : get_upload_job (set_upload_job_failed p.1 k.job_id
      ("Queued job file not found after server restart") now) jid
      = get_upload_job p.1 jid := by
    unfold set_upload_job_failed
    exact get_updateJob_other p.1 k.job_id
      (fun x => { x with
                  status := ("failed"),
                  error := some ("Queued job file not found after server restart"),
                  completed_at := some now }) (fun x => rfl) jid (Ne.symm hk)
  unfold recoverQueuedStep
  cases k.saved_path with
  | none => exact hfail
  | some sp =>
    by_cases hin : fs.contains sp = true
    · simp only [hin, if_true]
    · simp only [hin, Bool.false_eq_true, if_false]
      exact hfail

theorem recover_fold_get_not_mem (fs : List String) (now : Int)
    (queued : List UploadJob) :
    ∀ (p : List UploadJob × List String) (jid : String),
      (∀ k ∈ queued, k.job_id ≠ jid) →
      get_upload_job (queued.foldl (recoverQueuedStep fs now) p).1 jid
        = get_upload_job p.1 jid := by
  induction queued with
  | nil => intro p jid _; rfl
  | cons k rest ih =>
    intro p jid h
    rw [List.foldl_cons, ih _ jid (fun x hx => h x (List.mem_cons_of_mem k hx)),
        recoverQueuedStep_get_other fs now p k jid (h k (List.mem_cons_self k rest))]

theorem recover_fold_get_missing (fs : List String) (now : Int)
    (queued : List UploadJob) :
    ∀ (p : List UploadJob × List String) (j : UploadJob) (sp : String),
      (queued.map UploadJob.job_id).Nodup → j ∈ queued →
      j.saved_path = some sp → fs.contains sp = false →
      get_upload_job (queued.foldl (recoverQueuedStep fs now) p).1 j.job_id
        = (get_upload_job p.1 j.job_id).map
            (fun x => { x with
                        status := ("failed"),
                        error := some ("Queued job file not found after server restart"),
                        completed_at := some now }) := by
  induction queued with
  | nil =>
    intro p j sp _ hj
    cases hj
  | cons k rest ih =>
    intro p j sp hnd hj hsp hmiss
    rw [List.map_cons, List.nodup_cons] at hnd
    rcases List.mem_cons.mp hj with he | hmem
    · subst he
      have hstep : (recoverQueuedStep fs now p j).1
          = set_upload_job_failed p.1 j.job_id
              ("Queued job file not found after server restart") now := by
        unfold recoverQueuedStep
        rw [hsp]
        simp only [hmiss, Bool.false_eq_true, if_false]
      have hrest : ∀ k2 ∈ rest, k2.job_id ≠ j.job_id := by
        intro k2 hk2 he
        exact hnd.1 (he ▸ List.mem_map_of_mem UploadJob.job_id hk2)
      rw [List.foldl_cons,
        recover_fold_get_not_mem fs now rest _ j.job_id hrest, hstep]
      unfold set_upload_job_failed
      rw [get_updateJob p.1 j.job_id
        (fun x => { x with
                    status := ("failed"),
                    error := some ("Queued job file not found after server restart"),
                    completed_at := some now }) (fun x => rfl) j.job_id]
      cases h : get_upload_job p.1 j.job_id with
      | none => rfl
      | some y =>
        unfold get_upload_job at h
        have hy := List.find?_some h
        simp only [beq_iff_eq] at hy
        simp [hy]
    · have hk : k.job_id ≠ j.job_id := by
        intro he
        exact hnd.1 (he ▸ List.mem_map_of_mem UploadJob.job_id hmem)
      rw [List.foldl_cons, ih _ j sp hnd.2 hmem hsp hmiss,
        recoverQueuedStep_get_other fs now p k j.job_id hk]

theorem recover_fold_spawn (fs : List String) (now : Int)
    (queued : List UploadJob) :
    ∀ (p : List UploadJob × List String),
      (queued.foldl (recoverQueuedStep fs now) p).2
        = p.2 ++ (queued.filter (fun j =>
            match j.saved_path with
            | some sp => fs.contains sp
            | none => false)).map UploadJob.job_id := by
  induction queued with
  | nil => intro p; simp
  | cons k rest ih =>
    intro p
    rw [List.foldl_cons, ih]
    cases hsp : k.saved_path with
    | none =>
      have hstep : recoverQueuedStep fs now p k
          = (set_upload_job_failed p.1 k.job_id
              ("Queued job file not found after server restart") now, p.2) := by
        unfold recoverQueuedStep
        rw [hsp]
      have hpred : (match k.saved_path with
          | some sp2 => fs.contains sp2
          | none => false) = false := by
        rw [hsp]
      rw [hstep, List.filter_cons]
      simp only [hpred, Bool.false_eq_true, if_false]
    | some sp =>
      by_cases hin : fs.contains sp = true
      · have hstep : recoverQueuedStep fs now p k = (p.1, p.2 ++ [k.job_id]) := by
          unfold recoverQueuedStep
          rw [hsp]
          simp only [hin, if_true]
        have hpred : (match k.saved_path with
            | some sp2 => fs.contains sp2
            | none => false) = true := by
          rw [hsp]
          exact hin
        rw [hstep, List.filter_cons]
        simp only [hpred, if_true, List.map_cons,
          List.append_assoc, List.singleton_append]
      · have hstep : recoverQueuedStep fs now p k
            = (set_upload_job_failed p.1 k.job_id
                ("Queued job file not found after server restart") now, p.2) := by
          unfold recoverQueuedStep
          rw [hsp]
          simp only [hin, Bool.false_eq_true, if_false]
        have hpred : (match k.saved_path with
            | some sp2 => fs.contains sp2
            | none => false) = false := by
          rw [hsp]
          simpa using hin
        rw [hstep, List.filter_cons]
        simp only [hpred, Bool.false_eq_true, if_false]

/-! ### Claim theorems -/

/-- C10: every Job Ledger update operation (set running, set completed,
set failed, mark file deleted) invoked with a job_id that matches no
existing job is a silent no op: it raises no error and leaves every job
record in the ledger unchanged. -/
theorem C10_update_unknown_id_noop (jobs : List UploadJob) (jid : String)
    (now : Int) (n : Nat) (m : String)
    (h : ∀ j ∈ jobs, j.job_id ≠ jid) :
    set_upload_job_running jobs jid now = jobs
    ∧ set_upload_job_completed jobs jid n now = jobs
    ∧ set_upload_job_failed jobs jid m now = jobs
    ∧ mark_upload_file_deleted jobs jid now = jobs := by
  have hmap : ∀ (f : UploadJob → UploadJob), updateJob jobs jid f = jobs := by
    intro f
    unfold updateJob
    have hcong : ∀ j ∈ jobs, (if j.job_id = jid then f j else j) = j := by
      intro j hj
      rw [if_neg (h j hj)]
    rw [List.map_congr_left hcong]
    simp
  exact ⟨hmap _, hmap _, hmap _, hmap _⟩

theorem C10_update_unknown_id_noop_witness :
    (∀ j ∈ exCleanupJobs, j.job_id ≠ ("zz"))
    ∧ (set_upload_job_running exCleanupJobs ("zz") 7 = exCleanupJobs
       ∧ set_upload_job_completed exCleanupJobs ("zz") 4 7 = exCleanupJobs
       ∧ set_upload_job_failed exCleanupJobs ("zz") ("boom") 7 = exCleanupJobs
       ∧ mark_upload_file_deleted exCleanupJobs ("zz") 7 = exCleanupJobs) :=
  ⟨by decide, C10_update_unknown_id_noop exCleanupJobs ("zz") 7 4 ("boom") (by decide)⟩

/-- C3 counterexample: the Row Normalizer does not return a normalized
record for every raw row and every resolved column mapping — on a row
shorter than the mapped indices (here the empty row against the mapping
name 0, email 1, age 2) the tuple lookup raises IndexError, modelled as
an error result. -/
theorem C3_counterexample :
    normalizeRow [] ⟨0, 1, 2⟩ = Except.error ("tuple index out of range") := by
  decide

/-- C3 amended: provided every mapped index is inside the row and the age
cell does not stand for an infinite float (a shorter row makes the tuple
lookup raise IndexError, and int() of an infinite value raises an
uncaught OverflowError), the Row Normalizer returns without raising: name
and email are the stripped str() of their cells when truthy and the empty
string otherwise (in particular for a null cell), and age truncates any
numeric looking value toward zero, with 0 for null, empty or unparsable
cells. -/
theorem C3_normalizer_amended (row : List Cell) (cm : ColumnMap)
    (nc ec ac : Cell) (a : Int)
    (hn : row.get? cm.name = some nc)
    (he : row.get? cm.email = some ec)
    (ha : row.get? cm.age = some ac)
    (hage : pyAge ac = Except.ok a) :
    normalizeRow row cm
      = Except.ok { name := strField nc, email := strField ec, age := a }
    ∧ strField Cell.null = ("")
    ∧ pyAge Cell.null = Except.ok 0
    ∧ (∀ q : Rat, pyAge (Cell.float q) = Except.ok (q.num.tdiv (q.den : Int)))
    ∧ (∀ s : String, s ≠ ("") → parseFloat s = none
        → pyAge (Cell.str s) = Except.ok 0) := by
  refine ⟨?_, rfl, rfl, fun q => rfl, ?_⟩
  · simp only [List.get?_eq_getElem?] at hn he ha
    simp [normalizeRow, pyIndex, hn, he, ha, hage, Except.map]
    show NormUser.mk (strField nc) (strField ec) <$> pyAge ac
        = Except.ok { name := strField nc, email := strField ec, age := a }
    rw [hage]
    rfl
  · intro s hs hp
    simp [pyAge, hs, hp]

theorem C3_normalizer_amended_witness :
    normalizeRow [Cell.str ("  Ada  "), Cell.null, Cell.str (" -41.9 ")] ⟨0, 1, 2⟩
      = Except.ok { name := ("Ada"), email := (""), age := -41 } := by
  have h := (C3_normalizer_amended
    [Cell.str ("  Ada  "), Cell.null, Cell.str (" -41.9 ")] ⟨0, 1, 2⟩
    (Cell.str ("  Ada  ")) Cell.null (Cell.str (" -41.9 ")) (-41)
    (by decide) (by decide) (by decide) (by decide)).1
  exact h.trans (by decide)

/-- C7: a row whose normalized name and email are both empty and whose
normalized age is 0 is skipped by the Ingestion Engine: every payload the
engine hands to bulk_insert_users holds only non blank users, every row
committed by the run is non blank, and the final local inserted_rows
counter counts exactly the committed non blank rows. -/
theorem C7_blank_rows_filtered (jobs : List UploadJob) (jid : String)
    (file : List (List Cell)) (C : Nat) (required : List String)
    (sErr : Nat → Option String) (now : Int) :
    NonBlankResult (process_excel_job jobs jid file C required sErr now) := by
  cases file with
  | nil =>
    refine ⟨?_, ?_, rfl⟩
    · intro b hb
      cases hb
    · intro u hu
      cases hu
  | cons headers dataRows =>
    unfold process_excel_job
    simp only []
    split
    · split
      · rename_i ni ei ai hn he ha
        have hI := ingestRows_nonblank C ⟨ni, ei, ai⟩ sErr dataRows
          ⟨[], 0, [], [], none⟩ (by intro u hu; cases hu)
          (by intro bb hbb; cases hbb) (by intro u hu; cases hu) rfl
        split
        · exact ⟨hI.2.1, hI.2.2.1, hI.2.2.2⟩
        · split
          · exact ⟨hI.2.1, hI.2.2.1, hI.2.2.2⟩
          · split
            · refine ⟨?_, hI.2.2.1, hI.2.2.2⟩
              intro b hb
              rcases List.mem_append.mp hb with hb | hb
              · exact hI.2.1 b hb
              · rw [List.mem_singleton.mp hb]
                exact hI.1
            · refine ⟨?_, ?_, ?_⟩
              · intro b hb
                rcases List.mem_append.mp hb with hb | hb
                · exact hI.2.1 b hb
                · rw [List.mem_singleton.mp hb]
                  exact hI.1
              · intro u hu
                rcases List.mem_append.mp hu with hu | hu
                · exact hI.2.2.1 u hu
                · exact hI.1 u hu
              · rw [List.length_append, hI.2.2.2]
      · refine ⟨?_, ?_, rfl⟩
        · intro b hb
          cases hb
        · intro u hu
          cases hu
    · refine ⟨?_, ?_, rfl⟩
      · intro b hb
        cases hb
      · intro u hu
        cases hu

theorem string_data_append (s t : String) : (s ++ t).data = s.data ++ t.data := rfl

theorem infix_append_left {α : Type} (m b a : List α)
    (h : List.IsInfix m b) : List.IsInfix m (a ++ b) := by
  rcases h with ⟨s, t, heq⟩
  exact ⟨a ++ s, t, by rw [← heq]; simp [List.append_assoc]⟩

theorem infix_append_right {α : Type} (m a b : List α)
    (h : List.IsInfix m a) : List.IsInfix m (a ++ b) := by
  rcases h with ⟨s, t, heq⟩
  exact ⟨s, t ++ b, by rw [← heq]; simp [List.append_assoc]⟩

theorem mem_infix_pyJoin (xs : List String) :
    ∀ c ∈ xs, List.IsInfix c.data (pyJoin xs).data := by
  induction xs with
  | nil =>
    intro c hc
    cases hc
  | cons x t ih =>
    intro c hc
    rcases List.mem_cons.mp hc with he | hm
    · subst he
      cases t with
      | nil =>
        refine ⟨squote.data, squote.data, ?_⟩
        simp [pyJoin, pyStrRepr, string_data_append]
      | cons y ys =>
        refine ⟨squote.data,
          squote.data ++ (", ").data ++ (pyJoin (y :: ys)).data, ?_⟩
        simp [pyJoin, pyStrRepr, string_data_append, List.append_assoc]
    · cases t with
      | nil => cases hm
      | cons y ys =>
        have h := ih c hm
        have h2 : (pyJoin (x :: y :: ys)).data
            = ((pyStrRepr x).data ++ (", ").data) ++ (pyJoin (y :: ys)).data := by
          simp [pyJoin, string_data_append, List.append_assoc]
        rw [h2]
        exact infix_append_left _ _ _ h

theorem mem_infix_schemaErrorMsg (required missing : List String) (c : String)
    (hc : c ∈ missing) :
    List.IsInfix c.data (schemaErrorMsg required missing).data := by
  have h := mem_infix_pyJoin missing c hc
  have h2 : (schemaErrorMsg required missing).data
      = (("Excel must contain columns: ") ++ pyTupleRepr required
          ++ (". Missing: ") ++ ("[")).data
        ++ ((pyJoin missing).data ++ ("]").data) := by
    simp [schemaErrorMsg, pyListRepr, string_data_append, List.append_assoc]
  rw [h2]
  exact infix_append_left _ _ _ (infix_append_right _ _ _ h)

/-- C6: when any required column is absent from the header (cells matched
after stripping and lowercasing, blank and null header cells ignored),
the run fails and the recorded error is the schema message built from the
complete list of missing required columns — and that message names every
missing column: each missing name occurs inside the message text. -/
theorem C6_schema_error_names_all_missing (jobs : List UploadJob) (jid : String)
    (headers : List Cell) (dataRows : List (List Cell)) (C : Nat)
    (required : List String) (sErr : Nat → Option String) (now : Int)
    (hmiss : required.filter (fun c => !hasColumn (headerEntries headers) c) ≠ []) :
    get_upload_job
        (process_excel_job jobs jid (headers :: dataRows) C required sErr now).jobs jid
      = (get_upload_job jobs jid).map (fun j =>
          { j with status := ("failed"), started_at := some now,
                   error := some (schemaErrorMsg required
                     (required.filter (fun c => !hasColumn (headerEntries headers) c))),
                   completed_at := some now })
    ∧ ∀ c ∈ required.filter (fun c => !hasColumn (headerEntries headers) c),
        List.IsInfix c.data (schemaErrorMsg required
          (required.filter (fun c2 => !hasColumn (headerEntries headers) c2))).data := by
  constructor
  · rw [process_run_schema_fail jobs jid headers dataRows C required sErr now hmiss]
    exact get_after_fail_run jobs jid _ now
  · intro c hc
    exact mem_infix_schemaErrorMsg required _ c hc

theorem C6_schema_error_names_all_missing_witness :
    ([("name"), ("email"), ("age")].filter
        (fun c => !hasColumn (headerEntries [Cell.str ("name")]) c) ≠ [])
    ∧ (get_upload_job (process_excel_job exLedger ("j1")
          ([Cell.str ("name")] :: [exRow 1]) 2 [("name"), ("email"), ("age")]
          (fun _ => none) 5).jobs ("j1")).map UploadJob.error
        = some (some (schemaErrorMsg [("name"), ("email"), ("age")]
            [("email"), ("age")]))
    ∧ List.IsInfix ("email").data (schemaErrorMsg [("name"), ("email"), ("age")]
        [("email"), ("age")]).data
    ∧ List.IsInfix ("age").data (schemaErrorMsg [("name"), ("email"), ("age")]
        [("email"), ("age")]).data := by
  have h := C6_schema_error_names_all_missing exLedger ("j1") [Cell.str ("name")]
    [exRow 1] 2 [("name"), ("email"), ("age")] (fun _ => none) 5 (by decide)
  refine ⟨by decide, ?_, ?_, ?_⟩
  · rw [h.1]
    decide
  · exact (by decide : List.IsInfix ("email").data (schemaErrorMsg
      [("name"), ("email"), ("age")] [("email"), ("age")]).data)
  · exact h.2 ("age") (by decide)

/-- C9: a job is selected for cleanup iff its completed_at is non null
and at least the retention window older than now, its file_deleted_at is
still null and its saved_path is non null; and the sweep leaves every non
eligible job untouched — in particular a job whose file_deleted_at is
already set is never selected or modified again. -/
theorem C9_cleanup_eligibility (jobs : List UploadJob) (fs : List String)
    (enabled : Bool) (retention now : Int) (unlinkErr : String → Bool)
    (hnd : (jobs.map UploadJob.job_id).Nodup) :
    (∀ j, j ∈ get_jobs_for_cleanup jobs (now - retention)
        ↔ j ∈ jobs ∧ cleanupEligible retention now j)
    ∧ (∀ j ∈ jobs, ¬ cleanupEligible retention now j →
        get_upload_job
            (cleanup_expired_uploads jobs fs enabled retention now unlinkErr).jobs
            j.job_id = some j) := by
  have hIff : ∀ j, j ∈ get_jobs_for_cleanup jobs (now - retention)
      ↔ j ∈ jobs ∧ cleanupEligible retention now j := by
    intro j
    rw [mem_get_jobs_for_cleanup]
    unfold cleanupEligible
    constructor
    · rintro ⟨hm, ⟨t, ht, hle⟩, h2, h3⟩
      exact ⟨hm, ⟨t, ht, by omega⟩, h2, h3⟩
    · rintro ⟨hm, ⟨t, ht, hle⟩, h2, h3⟩
      exact ⟨hm, ⟨t, ht, by omega⟩, h2, h3⟩
  refine ⟨hIff, ?_⟩
  intro j hj hne
  unfold cleanup_expired_uploads
  by_cases he : enabled = true
  · rw [if_pos he]
    have hnotc : ∀ k ∈ get_jobs_for_cleanup jobs (now - retention),
        k.job_id ≠ j.job_id := by
      intro k hk heq
      have hkm := (hIff k).mp hk
      have hkj : k = j := UploadJob_eq_of_mem jobs hnd j k hj hkm.1 heq
      exact hne (hkj ▸ hkm.2)
    rw [sweep_fold_get_not_mem now unlinkErr _ _ j.job_id hnotc]
    exact get_upload_job_of_mem jobs j hnd hj
  · rw [if_neg he]
    exact get_upload_job_of_mem jobs j hnd hj

theorem C9_cleanup_eligibility_witness :
    (exCleanupJobs.map UploadJob.job_id).Nodup
    ∧ ((∀ j, j ∈ get_jobs_for_cleanup exCleanupJobs (20 - 30)
          ↔ j ∈ exCleanupJobs ∧ cleanupEligible 30 20 j)
       ∧ (∀ j ∈ exCleanupJobs, ¬ cleanupEligible 30 20 j →
           get_upload_job (cleanup_expired_uploads exCleanupJobs [("pa")] true 30 20
               (fun _ => false)).jobs j.job_id = some j)) :=
  ⟨by decide,
    C9_cleanup_eligibility exCleanupJobs [("pa")] true 30 20 (fun _ => false) (by decide)⟩

/-- C4 counterexample: the sweep does not record file_deleted_at
regardless of deletion failure — job a is selected, its file exists and
its unlink raises OSError, and after the sweep its file_deleted_at is
still null (the except clause continues to the next job, skipping
mark_upload_file_deleted), while job b is still cleaned up. -/
theorem C4_counterexample :
    (get_upload_job (cleanup_expired_uploads exCleanupJobs [("pa"), ("pb")] true 10 20
        (fun p => p == ("pa"))).jobs ("a")).map UploadJob.file_deleted_at
      = some none
    ∧ (get_upload_job (cleanup_expired_uploads exCleanupJobs [("pa"), ("pb")] true 10 20
        (fun p => p == ("pa"))).jobs ("b")).map UploadJob.file_deleted_at
      = some (some 20) := by
  decide

/-- C4 amended: for every selected job the sweep deletes the file only
when it exists, and records file_deleted_at = now exactly when no
filesystem error occurs for that job — when its unlink does not raise, or
when its file is absent; a deletion error skips the ledger mark for that
job only, and every other candidate is still processed according to its
own condition (the statement holds for each candidate independently of
errors on the others). -/
theorem C4_sweep_amended (jobs : List UploadJob) (fs : List String)
    (retention now : Int) (unlinkErr : String → Bool)
    (hnd : (jobs.map UploadJob.job_id).Nodup)
    (j : UploadJob) (sp : String)
    (hj : j ∈ get_jobs_for_cleanup jobs (now - retention))
    (hsp : j.saved_path = some sp)
    (hcond : unlinkErr sp = false ∨ sp ∉ fs) :
    get_upload_job
        (cleanup_expired_uploads jobs fs true retention now unlinkErr).jobs j.job_id
      = some { j with file_deleted_at := some now } := by
  unfold cleanup_expired_uploads
  rw [if_pos rfl]
  have hndc : ((get_jobs_for_cleanup jobs (now - retention)).map UploadJob.job_id).Nodup :=
    hnd.sublist ((List.filter_sublist jobs).map UploadJob.job_id)
  rw [sweep_fold_marks now unlinkErr _ _ j sp hndc hj hsp hcond]
  have hjm : j ∈ jobs := ((mem_get_jobs_for_cleanup jobs (now - retention) j).mp hj).1
  rw [get_upload_job_of_mem jobs j hnd hjm]
  rfl

theorem C4_sweep_amended_witness :
    get_upload_job (cleanup_expired_uploads exCleanupJobs [("pa"), ("pb")] true 10 20
        (fun p => p == ("pa"))).jobs ("b")
      = some { job_id := ("b"), filename := ("fb"), saved_path := some ("pb"),
               status := ("completed"), chunk_size := 2, inserted_rows := 3,
               error := none, created_at := 0, started_at := none,
               completed_at := some 0, file_deleted_at := some 20 } := by
  have h := C4_sweep_amended exCleanupJobs [("pa"), ("pb")] 10 20
    (fun p => p == ("pa")) (by decide)
    { job_id := ("b"), filename := ("fb"), saved_path := some ("pb"),
      status := ("completed"), chunk_size := 2, inserted_rows := 3,
      error := none, created_at := 0, started_at := none,
      completed_at := some 0, file_deleted_at := none }
    ("pb") (by decide) (by decide) (Or.inl (by decide))
  exact h.trans (by decide)

theorem chunk_count_eq_ceil (N C : Nat) (hC : 0 < C) :
    (N / C + (if N % C = 0 then 0 else 1)) = (N + C - 1) / C := by
  have hdm := Nat.div_add_mod N C
  by_cases hr : N % C = 0
  · rw [if_pos hr]
    have h1 : N + C - 1 = C * (N / C) + (C - 1) := by omega
    rw [h1, Nat.mul_add_div hC,
      Nat.div_eq_of_lt (show C - 1 < C by omega), Nat.add_zero]
  · rw [if_neg hr]
    have hrlt : N % C < C := Nat.mod_lt _ hC
    have h2 : C * (N / C + 1) = C * (N / C) + C := by ring
    have h1 : N + C - 1 = C * (N / C + 1) + (N % C - 1) := by omega
    rw [h1, Nat.mul_add_div hC,
      Nat.div_eq_of_lt (show N % C - 1 < C by omega), Nat.add_zero]

theorem engine_complete_run (jobs : List UploadJob) (jid : String)
    (headers : List Cell) (dataRows : List (List Cell)) (C : Nat)
    (required : List String) (now : Int) (ni ei ai : Nat)
    (hC : 0 < C)
    (hmiss : required.filter (fun c => !hasColumn (headerEntries headers) c) = [])
    (hn : dictGet (headerEntries headers) ("name") = some ni)
    (he : dictGet (headerEntries headers) ("email") = some ei)
    (ha : dictGet (headerEntries headers) ("age") = some ai)
    (hok : ∀ r ∈ dataRows, (normalizeRow r ⟨ni, ei, ai⟩).isOk = true) :
    (process_excel_job jobs jid (headers :: dataRows) C required
        (fun _ => none) now).runCalls.map List.length
      = List.replicate ((validUsers dataRows ⟨ni, ei, ai⟩).length / C) C
        ++ (if (validUsers dataRows ⟨ni, ei, ai⟩).length % C = 0 then []
            else [(validUsers dataRows ⟨ni, ei, ai⟩).length % C])
    ∧ (process_excel_job jobs jid (headers :: dataRows) C required
        (fun _ => none) now).runCalls.length
      = (validUsers dataRows ⟨ni, ei, ai⟩).length / C
        + (if (validUsers dataRows ⟨ni, ei, ai⟩).length % C = 0 then 0 else 1)
    ∧ get_upload_job (process_excel_job jobs jid (headers :: dataRows) C required
        (fun _ => none) now).jobs jid
      = (get_upload_job jobs jid).map (fun j =>
          { j with status := ("completed"),
                   inserted_rows := (validUsers dataRows ⟨ni, ei, ai⟩).length,
                   started_at := some now, error := none,
                   completed_at := some now }) := by
  have hst := ingestRows_of_ok C ⟨ni, ei, ai⟩ dataRows hok [] 0 [] []
  have hspec := chunkAccum_spec C hC (validUsers dataRows ⟨ni, ei, ai⟩) []
    (by simpa using hC)
  have hsizes : (chunkAccum C [] (validUsers dataRows ⟨ni, ei, ai⟩)).1.map List.length
      = List.replicate ((validUsers dataRows ⟨ni, ei, ai⟩).length / C) C := by
    simpa using hspec.1
  have hrem : (chunkAccum C [] (validUsers dataRows ⟨ni, ei, ai⟩)).2.length
      = (validUsers dataRows ⟨ni, ei, ai⟩).length % C := by
    simpa using hspec.2
  have hchunks : (chunkAccum C [] (validUsers dataRows ⟨ni, ei, ai⟩)).1.length
      = (validUsers dataRows ⟨ni, ei, ai⟩).length / C := by
    have h1 : (chunkAccum C [] (validUsers dataRows ⟨ni, ei, ai⟩)).1.length
        = ((chunkAccum C [] (validUsers dataRows ⟨ni, ei, ai⟩)).1.map List.length).length :=
      (List.length_map _ _).symm
    rw [h1, hsizes, List.length_replicate]
  have hsum : ((chunkAccum C [] (validUsers dataRows ⟨ni, ei, ai⟩)).1.map List.length).sum
      = ((validUsers dataRows ⟨ni, ei, ai⟩).length / C) * C := by
    rw [hsizes]
    simp [List.sum_replicate, smul_eq_mul]
  have herr : (ingestRows C ⟨ni, ei, ai⟩ (fun _ => none) dataRows
      ⟨[], 0, [], [], none⟩).err = none := by
    rw [hst]
  by_cases hr : (validUsers dataRows ⟨ni, ei, ai⟩).length % C = 0
  · have hbe : (ingestRows C ⟨ni, ei, ai⟩ (fun _ => none) dataRows
        ⟨[], 0, [], [], none⟩).batch = [] := by
      rw [hst]
      have h2 := hrem
      rw [hr] at h2
      exact List.length_eq_zero.mp h2
    have hins : (ingestRows C ⟨ni, ei, ai⟩ (fun _ => none) dataRows
        ⟨[], 0, [], [], none⟩).inserted
        = (validUsers dataRows ⟨ni, ei, ai⟩).length := by
      rw [hst]
      show 0 + ((chunkAccum C [] (validUsers dataRows ⟨ni, ei, ai⟩)).1.map List.length).sum
          = (validUsers dataRows ⟨ni, ei, ai⟩).length
      rw [Nat.zero_add, hsum]
      exact Nat.div_mul_cancel (Nat.dvd_of_mod_eq_zero hr)
    rw [process_run_complete_nobatch jobs jid headers dataRows C required
      (fun _ => none) now ni ei ai hmiss hn he ha herr hbe]
    refine ⟨?_, ?_, ?_⟩
    · show ((ingestRows C ⟨ni, ei, ai⟩ (fun _ => none) dataRows
          ⟨[], 0, [], [], none⟩).calls).map List.length = _
      rw [hst]
      show (([] ++ (chunkAccum C [] (validUsers dataRows ⟨ni, ei, ai⟩)).1).map
          List.length) = _
      rw [List.nil_append, hsizes, if_pos hr, List.append_nil]
    · show ((ingestRows C ⟨ni, ei, ai⟩ (fun _ => none) dataRows
          ⟨[], 0, [], [], none⟩).calls).length = _
      rw [hst]
      show ([] ++ (chunkAccum C [] (validUsers dataRows ⟨ni, ei, ai⟩)).1).length = _
      rw [List.nil_append, hchunks, if_pos hr, Nat.add_zero]
    · rw [hins]
      exact get_after_complete_run jobs jid _ now
  · have hbe : (ingestRows C ⟨ni, ei, ai⟩ (fun _ => none) dataRows
        ⟨[], 0, [], [], none⟩).batch ≠ [] := by
      rw [hst]
      show (chunkAccum C [] (validUsers dataRows ⟨ni, ei, ai⟩)).2 ≠ []
      intro h2
      apply hr
      rw [← hrem, h2]
      rfl
    have hw : (fun _ : Nat => (none : Option String))
        ((ingestRows C ⟨ni, ei, ai⟩ (fun _ => none) dataRows
          ⟨[], 0, [], [], none⟩).calls).length = none := rfl
    have hins : (ingestRows C ⟨ni, ei, ai⟩ (fun _ => none) dataRows
        ⟨[], 0, [], [], none⟩).inserted
        + (ingestRows C ⟨ni, ei, ai⟩ (fun _ => none) dataRows
          ⟨[], 0, [], [], none⟩).batch.length
        = (validUsers dataRows ⟨ni, ei, ai⟩).length := by
      rw [hst]
      show 0 + ((chunkAccum C [] (validUsers dataRows ⟨ni, ei, ai⟩)).1.map List.length).sum
          + (chunkAccum C [] (validUsers dataRows ⟨ni, ei, ai⟩)).2.length
          = (validUsers dataRows ⟨ni, ei, ai⟩).length
      rw [Nat.zero_add, hsum, hrem, Nat.mul_comm]
      exact Nat.div_add_mod _ C
    rw [process_run_flush_ok jobs jid headers dataRows C required
      (fun _ => none) now ni ei ai hmiss hn he ha herr hbe hw]
    refine ⟨?_, ?_, ?_⟩
    · show (((ingestRows C ⟨ni, ei, ai⟩ (fun _ => none) dataRows
          ⟨[], 0, [], [], none⟩).calls)
          ++ [(ingestRows C ⟨ni, ei, ai⟩ (fun _ => none) dataRows
            ⟨[], 0, [], [], none⟩).batch]).map List.length = _
      rw [List.map_append, hst]
      show (([] ++ (chunkAccum C [] (validUsers dataRows ⟨ni, ei, ai⟩)).1).map
            List.length)
          ++ [(chunkAccum C [] (validUsers dataRows ⟨ni, ei, ai⟩)).2].map List.length
          = _
      rw [List.nil_append, hsizes, if_neg hr]
      simp [hrem]
    · show (((ingestRows C ⟨ni, ei, ai⟩ (fun _ => none) dataRows
          ⟨[], 0, [], [], none⟩).calls)
          ++ [(ingestRows C ⟨ni, ei, ai⟩ (fun _ => none) dataRows
            ⟨[], 0, [], [], none⟩).batch]).length = _
      rw [List.length_append, hst]
      show ([] ++ (chunkAccum C [] (validUsers dataRows ⟨ni, ei, ai⟩)).1).length + 1 = _
      rw [List.nil_append, hchunks, if_neg hr]
    · rw [hins]
      exact get_after_complete_run jobs jid _ now

/-- C5: for a completed ingestion run (chunk size C ≥ 1, required columns
resolve, no row raises, every storage write commits) over a file whose
data rows yield N valid non blank users, bulk_insert_users is invoked
exactly ceil(N / C) times, every invocation except possibly the last
carries exactly C records, the last carries N mod C records (or C when C
divides N, the empty partial flush being skipped), and the job completes
with inserted_rows = N. -/
theorem C5_chunking_correctness (jobs : List UploadJob) (jid : String)
    (headers : List Cell) (dataRows : List (List Cell)) (C : Nat)
    (required : List String) (now : Int) (ni ei ai : Nat)
    (hC : 0 < C)
    (hmiss : required.filter (fun c => !hasColumn (headerEntries headers) c) = [])
    (hn : dictGet (headerEntries headers) ("name") = some ni)
    (he : dictGet (headerEntries headers) ("email") = some ei)
    (ha : dictGet (headerEntries headers) ("age") = some ai)
    (hok : ∀ r ∈ dataRows, (normalizeRow r ⟨ni, ei, ai⟩).isOk = true) :
    (process_excel_job jobs jid (headers :: dataRows) C required
        (fun _ => none) now).runCalls.map List.length
      = List.replicate ((validUsers dataRows ⟨ni, ei, ai⟩).length / C) C
        ++ (if (validUsers dataRows ⟨ni, ei, ai⟩).length % C = 0 then []
            else [(validUsers dataRows ⟨ni, ei, ai⟩).length % C])
    ∧ (process_excel_job jobs jid (headers :: dataRows) C required
        (fun _ => none) now).runCalls.length
      = ((validUsers dataRows ⟨ni, ei, ai⟩).length + C - 1) / C
    ∧ get_upload_job (process_excel_job jobs jid (headers :: dataRows) C required
        (fun _ => none) now).jobs jid
      = (get_upload_job jobs jid).map (fun j =>
          { j with status := ("completed"),
                   inserted_rows := (validUsers dataRows ⟨ni, ei, ai⟩).length,
                   started_at := some now, error := none,
                   completed_at := some now }) := by
  have h := engine_complete_run jobs jid headers dataRows C required now ni ei ai
    hC hmiss hn he ha hok
  exact ⟨h.1, h.2.1.trans (chunk_count_eq_ceil _ C hC), h.2.2⟩

theorem C5_chunking_correctness_witness :
    (process_excel_job exLedger ("j1")
        (exHeader :: [exRow 1, exRow 2, exRow 3, exRow 4, exRow 5]) 2 exRequired
        (fun _ => none) 5).runCalls.map List.length = [2, 2, 1]
    ∧ (get_upload_job (process_excel_job exLedger ("j1")
        (exHeader :: [exRow 1, exRow 2, exRow 3, exRow 4, exRow 5]) 2 exRequired
        (fun _ => none) 5).jobs ("j1")).map
        (fun j => (j.status, j.inserted_rows)) = some (("completed"), 5) := by
  have h := C5_chunking_correctness exLedger ("j1") exHeader
    [exRow 1, exRow 2, exRow 3, exRow 4, exRow 5] 2 exRequired 5 0 1 2
    (by decide) (by decide) (by decide) (by decide) (by decide) (by decide)
  refine ⟨h.1.trans (by decide), ?_⟩
  rw [h.2.2]
  decide

/-- C2 counterexample: the job is created with captured chunk_size 2, but
a run whose EXCEL_CHUNK_SIZE is 3 at processing time batches three valid
rows as one bulk write of size 3 — not as the sizes 2 and 1 that batching
by the captured value would produce — so the batch size used by the
engine is not the chunk_size captured in the ledger record. -/
theorem C2_counterexample :
    (get_upload_job exLedger ("j1")).map UploadJob.chunk_size = some 2
    ∧ (process_excel_job exLedger ("j1") (exHeader :: [exRow 1, exRow 2, exRow 3]) 3
        exRequired (fun _ => none) 5).runCalls.map List.length = [3]
    ∧ ([3] : List Nat) ≠ [2, 1] := by
  decide

/-- C2 amended: the Ingestion Engine batches by the EXCEL_CHUNK_SIZE
value read at processing time (the C argument of the run), not by reading
the chunk_size captured in the ledger; whenever that runtime value equals
the captured chunk_size — in particular when the configuration is
unchanged between creation and the run, as it always is within one
process lifetime — batching follows the captured value exactly. -/
theorem C2_chunk_size_amended (jobs : List UploadJob) (jid : String)
    (headers : List Cell) (dataRows : List (List Cell)) (C : Nat)
    (required : List String) (now : Int) (ni ei ai : Nat) (j : UploadJob)
    (hC : 0 < C)
    (hmiss : required.filter (fun c => !hasColumn (headerEntries headers) c) = [])
    (hn : dictGet (headerEntries headers) ("name") = some ni)
    (he : dictGet (headerEntries headers) ("email") = some ei)
    (ha : dictGet (headerEntries headers) ("age") = some ai)
    (hok : ∀ r ∈ dataRows, (normalizeRow r ⟨ni, ei, ai⟩).isOk = true)
    (hj : get_upload_job jobs jid = some j)
    (hcap : j.chunk_size = C) :
    (process_excel_job jobs jid (headers :: dataRows) C required
        (fun _ => none) now).runCalls.map List.length
      = List.replicate ((validUsers dataRows ⟨ni, ei, ai⟩).length / j.chunk_size)
          j.chunk_size
        ++ (if (validUsers dataRows ⟨ni, ei, ai⟩).length % j.chunk_size = 0 then []
            else [(validUsers dataRows ⟨ni, ei, ai⟩).length % j.chunk_size]) := by
  rw [hcap]
  exact (engine_complete_run jobs jid headers dataRows C required now ni ei ai
    hC hmiss hn he ha hok).1

theorem C2_chunk_size_amended_witness :
    (process_excel_job exLedger ("j1") (exHeader :: [exRow 1, exRow 2, exRow 3]) 2
        exRequired (fun _ => none) 5).runCalls.map List.length = [2, 1] := by
  have h := C2_chunk_size_amended exLedger ("j1") exHeader
    [exRow 1, exRow 2, exRow 3] 2 exRequired 5 0 1 2
    { job_id := ("j1"), filename := ("f.xlsx"), saved_path := some ("p"),
      status := ("queued"), chunk_size := 2, inserted_rows := 0, error := none,
      created_at := 0, started_at := none, completed_at := none,
      file_deleted_at := none }
    (by decide) (by decide) (by decide) (by decide) (by decide) (by decide)
    (by decide) (by decide)
  exact h.trans (by decide)

/-- C1 counterexample: chunk size 2, six valid rows, and a storage write
that raises on chunk 2 (call index 1): after the failure the ledger shows
status failed and the storage error, but inserted_rows is 0 — not 2, the
row count committed by chunk 1 — because set_upload_job_failed never
writes inserted_rows and the engine persists its local counter only on
completion; the two rows of chunk 1 are nevertheless committed in
storage. -/
theorem C1_counterexample :
    (get_upload_job (process_excel_job exLedger ("j1")
        (exHeader :: [exRow 1, exRow 2, exRow 3, exRow 4, exRow 5, exRow 6]) 2
        exRequired exStorageFailAt1 5).jobs ("j1")).map
        (fun j => (j.status, j.error, j.inserted_rows))
      = some (("failed"), some ("disk full"), 0)
    ∧ (process_excel_job exLedger ("j1")
        (exHeader :: [exRow 1, exRow 2, exRow 3, exRow 4, exRow 5, exRow 6]) 2
        exRequired exStorageFailAt1 5).runUsers.length = 2
    ∧ (0 : Nat) ≠ 2 := by
  decide

/-- C1 amended: when the run raises mid stream with message m (for
example a storage write failure on a later chunk), the ledger row moves
to failed carrying error m (non empty when the storage error has a
description) and completed_at = now, and its inserted_rows keeps exactly
the value it had before the run (0 for a fresh job): the ledger count is
written only by set_upload_job_completed on success, never chunk by
chunk.  The rows of the earlier successful chunks remain committed in
storage — the run keeps them as runUsers and nothing is rolled back. -/
theorem C1_partial_failure_amended (jobs : List UploadJob) (jid : String)
    (headers : List Cell) (dataRows : List (List Cell)) (C : Nat)
    (required : List String) (sErr : Nat → Option String) (now : Int)
    (ni ei ai : Nat) (m : String)
    (hmiss : required.filter (fun c => !hasColumn (headerEntries headers) c) = [])
    (hn : dictGet (headerEntries headers) ("name") = some ni)
    (he : dictGet (headerEntries headers) ("email") = some ei)
    (ha : dictGet (headerEntries headers) ("age") = some ai)
    (herr : (ingestRows C ⟨ni, ei, ai⟩ sErr dataRows ⟨[], 0, [], [], none⟩).err
        = some m)
    (hm : m ≠ ("")) :
    get_upload_job (process_excel_job jobs jid (headers :: dataRows) C required
        sErr now).jobs jid
      = (get_upload_job jobs jid).map (fun j =>
          { j with status := ("failed"), started_at := some now,
                   error := some m, completed_at := some now })
    ∧ (some m : Option String) ≠ some ("")
    ∧ (get_upload_job (process_excel_job jobs jid (headers :: dataRows) C required
          sErr now).jobs jid).map UploadJob.inserted_rows
        = (get_upload_job jobs jid).map UploadJob.inserted_rows
    ∧ (process_excel_job jobs jid (headers :: dataRows) C required sErr now).runUsers
        = (ingestRows C ⟨ni, ei, ai⟩ sErr dataRows ⟨[], 0, [], [], none⟩).users := by
  rw [process_run_fail_mid jobs jid headers dataRows C required sErr now
    ni ei ai m hmiss hn he ha herr]
  refine ⟨get_after_fail_run jobs jid m now, by simpa using hm, ?_, rfl⟩
  rw [get_after_fail_run jobs jid m now]
  cases get_upload_job jobs jid with
  | none => rfl
  | some j => rfl

theorem C1_partial_failure_amended_witness :
    get_upload_job (process_excel_job exLedger ("j1")
        (exHeader :: [exRow 1, exRow 2, exRow 3, exRow 4, exRow 5, exRow 6]) 2
        exRequired exStorageFailAt1 5).jobs ("j1")
      = some { job_id := ("j1"), filename := ("f.xlsx"), saved_path := some ("p"),
               status := ("failed"), chunk_size := 2, inserted_rows := 0,
               error := some ("disk full"), created_at := 0, started_at := some 5,
               completed_at := some 5, file_deleted_at := none } := by
  have h := C1_partial_failure_amended exLedger ("j1") exHeader
    [exRow 1, exRow 2, exRow 3, exRow 4, exRow 5, exRow 6] 2 exRequired
    exStorageFailAt1 5 0 1 2 ("disk full")
    (by decide) (by decide) (by decide) (by decide) (by decide) (by decide)
  exact h.1.trans (by decide)

/-- C8: with unique job ids (a spec invariant of the ledger), after the
Recovery Supervisor runs: every job that was in state running is failed
with the fixed interrupted-by-restart description — the running pass
completes before any queued job is examined, so the queued scan cannot
touch those jobs; and every queued job whose saved file no longer exists
is failed directly with the file-not-found description, and its id is
never handed to a process_excel_job thread. -/
theorem C8_recovery_after_restart (jobs : List UploadJob) (fs : List String)
    (now : Int) (hnd : (jobs.map UploadJob.job_id).Nodup) :
    (∀ j ∈ jobs, j.status = ("running") →
        get_upload_job (recover_jobs_after_restart jobs fs now).1 j.job_id
          = some { j with
                   status := ("failed"),
                   error := some ("Job interrupted because server restarted"),
                   completed_at := some now })
    ∧ (∀ j ∈ jobs, j.status = ("queued") → ∀ sp, j.saved_path = some sp →
        fs.contains sp = false →
        (get_upload_job (recover_jobs_after_restart jobs fs now).1 j.job_id
          = some { j with
                   status := ("failed"),
                   error := some ("Queued job file not found after server restart"),
                   completed_at := some now })
        ∧ j.job_id ∉ (recover_jobs_after_restart jobs fs now).2) := by
  set R := get_upload_jobs_by_status jobs [("running")] with hR
  set J1 := R.foldl (fun acc j => set_upload_job_failed acc j.job_id
    ("Job interrupted because server restarted") now) jobs with hJ1
  set Q := get_upload_jobs_by_status J1 [("queued")] with hQ
  have hres : recover_jobs_after_restart jobs fs now
      = Q.foldl (recoverQueuedStep fs now) (J1, []) := rfl
  have hg1 : J1 = jobs.map (fun x =>
      if x.job_id ∈ R.map UploadJob.job_id
      then { x with
             status := ("failed"),
             error := some ("Job interrupted because server restarted"),
             completed_at := some now }
      else x) :=
    foldl_fail_eq_map ("Job interrupted because server restarted") now R jobs
  have hg1pres : ∀ x : UploadJob,
      ((fun x : UploadJob =>
        if x.job_id ∈ R.map UploadJob.job_id
        then { x with
               status := ("failed"),
               error := some ("Job interrupted because server restarted"),
               completed_at := some now }
        else x) x).job_id = x.job_id := by
    intro x
    by_cases hx : x.job_id ∈ R.map UploadJob.job_id <;> simp [hx]
  have hids : J1.map UploadJob.job_id = jobs.map UploadJob.job_id := by
    rw [hg1]
    exact map_job_id_of_preserve _ hg1pres jobs
  have hnd1 : (J1.map UploadJob.job_id).Nodup := by
    rw [hids]
    exact hnd
  have hgetJ1 : ∀ x ∈ jobs, get_upload_job J1 x.job_id
      = some ((fun x : UploadJob =>
          if x.job_id ∈ R.map UploadJob.job_id
          then { x with
                 status := ("failed"),
                 error := some ("Job interrupted because server restarted"),
                 completed_at := some now }
          else x) x) := by
    intro x hx
    rw [hg1, get_upload_job_map _ hg1pres jobs x.job_id,
      get_upload_job_of_mem jobs x hnd hx]
    rfl
  constructor
  · intro j hj hrun
    have hmemR : j ∈ R := by
      rw [hR]
      exact (mem_get_upload_jobs_by_status jobs _ j).mpr ⟨hj, by simp [hrun]⟩
    have hidR : j.job_id ∈ R.map UploadJob.job_id :=
      List.mem_map_of_mem UploadJob.job_id hmemR
    have hnq : ∀ k ∈ Q, k.job_id ≠ j.job_id := by
      intro k hk heq
      have hkk := (mem_get_upload_jobs_by_status J1 _ k).mp (hQ ▸ hk)
      have hkJ1 : k ∈ jobs.map (fun x =>
          if x.job_id ∈ R.map UploadJob.job_id
          then { x with
                 status := ("failed"),
                 error := some ("Job interrupted because server restarted"),
                 completed_at := some now }
          else x) := hg1 ▸ hkk.1
      rcases List.mem_map.mp hkJ1 with ⟨y, hy, hky⟩
      have h1 : y.job_id = j.job_id := by
        have h1a : y.job_id = k.job_id := by
          rw [← hky]
          by_cases hxy : y.job_id ∈ R.map UploadJob.job_id <;> simp [hxy]
        rw [h1a, heq]
      have h2 : y = j := UploadJob_eq_of_mem jobs hnd j y hj hy h1
      subst h2
      have hst2 : k.status = ("failed") := by
        rw [← hky]
        simp [hidR]
      have hkq : k.status = ("queued") := List.mem_singleton.mp hkk.2
      rw [hst2] at hkq
      exact absurd hkq (by decide)
    rw [hres, recover_fold_get_not_mem fs now Q (J1, []) j.job_id hnq,
      hgetJ1 j hj]
    simp [hidR]
  · intro j hj hqd sp hsp hmiss
    have hnidR : j.job_id ∉ R.map UploadJob.job_id := by
      intro hmem
      rcases List.mem_map.mp hmem with ⟨y, hy, hyid⟩
      have hyR := (mem_get_upload_jobs_by_status jobs _ y).mp (hR ▸ hy)
      have h2 : y = j := UploadJob_eq_of_mem jobs hnd j y hj hyR.1 hyid
      have h3 : j.status = ("running") := by
        rw [← h2]
        exact List.mem_singleton.mp hyR.2
      rw [hqd] at h3
      exact absurd h3 (by decide)
    have hgj : get_upload_job J1 j.job_id = some j := by
      rw [hgetJ1 j hj]
      simp [hnidR]
    have hjJ1 : j ∈ J1 := by
      rw [hg1]
      have h4 := List.mem_map_of_mem (fun x : UploadJob =>
          if x.job_id ∈ R.map UploadJob.job_id
          then { x with
                 status := ("failed"),
                 error := some ("Job interrupted because server restarted"),
                 completed_at := some now }
          else x) hj
      simpa [hnidR] using h4
    have hjQ : j ∈ Q := by
      rw [hQ]
      exact (mem_get_upload_jobs_by_status J1 _ j).mpr ⟨hjJ1, by simp [hqd]⟩
    have hndQ : (Q.map UploadJob.job_id).Nodup := by
      have hsub : List.Sublist Q J1 := by
        rw [hQ]
        show List.Sublist (J1.filter _) J1
        exact List.filter_sublist J1
      exact hnd1.sublist (hsub.map UploadJob.job_id)
    constructor
    · rw [hres, recover_fold_get_missing fs now Q (J1, []) j sp hndQ hjQ hsp hmiss,
        hgj]
      rfl
    · rw [hres, recover_fold_spawn fs now Q (J1, [])]
      intro hmem
      rw [List.nil_append] at hmem
      rcases List.mem_map.mp hmem with ⟨q, hq, hqid⟩
      have hq2 := List.mem_filter.mp hq
      have hqJ1 : q ∈ jobs.map (fun x =>
          if x.job_id ∈ R.map UploadJob.job_id
          then { x with
                 status := ("failed"),
                 error := some ("Job interrupted because server restarted"),
                 completed_at := some now }
          else x) :=
        hg1 ▸ ((mem_get_upload_jobs_by_status J1 _ q).mp (hQ ▸ hq2.1)).1
      rcases List.mem_map.mp hqJ1 with ⟨y, hy, hqy⟩
      have h1 : y.job_id = j.job_id := by
        have h1a : y.job_id = q.job_id := by
          rw [← hqy]
          by_cases hxy : y.job_id ∈ R.map UploadJob.job_id <;> simp [hxy]
        rw [h1a, hqid]
      have h2 : y = j := UploadJob_eq_of_mem jobs hnd j y hj hy h1
      subst h2
      have hqj : q = y := by
        rw [← hqy]
        simp [hnidR]
      subst hqj
      have hpres := hq2.2
      simp only [hsp] at hpres
      rw [hmiss] at hpres
      exact absurd hpres (by decide)

theorem C8_recovery_after_restart_witness :
    (exRecoveryJobs.map UploadJob.job_id).Nodup
    ∧ get_upload_job (recover_jobs_after_restart exRecoveryJobs [("p2")] 9).1 ("r1")
        = some { job_id := ("r1"), filename := ("f1"), saved_path := some ("p1"),
                 status := ("failed"), chunk_size := 2, inserted_rows := 1,
                 error := some ("Job interrupted because server restarted"),
                 created_at := 0, started_at := some 1, completed_at := some 9,
                 file_deleted_at := none }
    ∧ get_upload_job (recover_jobs_after_restart exRecoveryJobs [("p2")] 9).1 ("q2")
        = some { job_id := ("q2"), filename := ("f3"), saved_path := some ("p3"),
                 status := ("failed"), chunk_size := 2, inserted_rows := 0,
                 error := some ("Queued job file not found after server restart"),
                 created_at := 0, started_at := none, completed_at := some 9,
                 file_deleted_at := none }
    ∧ ("q2") ∉ (recover_jobs_after_restart exRecoveryJobs [("p2")] 9).2 := by
  have h := C8_recovery_after_restart exRecoveryJobs [("p2")] 9 (by decide)
  have hr := h.1
    { job_id := ("r1"), filename := ("f1"), saved_path := some ("p1"),
      status := ("running"), chunk_size := 2, inserted_rows := 1, error := none,
      created_at := 0, started_at := some 1, completed_at := none,
      file_deleted_at := none } (by decide) (by decide)
  have hq := h.2
    { job_id := ("q2"), filename := ("f3"), saved_path := some ("p3"),
      status := ("queued"), chunk_size := 2, inserted_rows := 0, error := none,
      created_at := 0, started_at := none, completed_at := none,
      file_deleted_at := none } (by decide) (by decide) ("p3") (by decide) (by decide)
  exact ⟨by decide, hr.trans (by decide), hq.1.trans (by decide), hq.2⟩
